import Mathlib

/-!
Verification development for the GEMstack mission-execution core
(`GEMstack/onboard/execution/execution.py`).

The Python module is shallowly embedded: times are rationals, components
(which are external, user-supplied objects) are modelled as outcome oracles
indexed by the number of `update` calls made so far, and Python exceptions
are modelled with `Except`.  Mutations of `self` survive a raised exception
in Python, so executor-level operations return the mutated executor
alongside an `Except`-wrapped result.
-/

namespace Exec

abbrev Time := ℚ

/-- Python values passed between components and the blackboard.  Only the
structure needed by the executor is modelled: sequences (which have a
length and can be zipped with output names) and opaque scalars. -/
inductive PyObj where
  | atom (n : ℕ)
  | ofTime (t : Time)
  | pylist (l : List PyObj)

/-- `len(v)`: only sequences have a length; `len` of a scalar raises
`TypeError` (modelled as `none`). -/
def pyLen : PyObj → Option ℕ
  | .pylist l => some l.length
  | _ => none

def pyElems : PyObj → List PyObj
  | .pylist l => l
  | _ => []

/-- `state.mission.type` values (the closed enumeration; only the members
the executor mentions are needed). -/
inductive MissionEnum where
  | IDLE
  | RECOVERY_STOP
deriving DecidableEq, Repr

/-- First-match lookup in an association list (Python `dict` access; keys
of an actual dict are unique so first-match agrees with dict semantics). -/
def alookup {α : Type} : List (String × α) → String → Option α
  | [], _ => none
  | (k, v) :: rest, key => if k = key then some v else alookup rest key

/-- In-place update of an association list entry, appending when the key is
absent (Python `setattr` / dict assignment). -/
def aset {α : Type} : List (String × α) → String → α → List (String × α)
  | [], k, v => [(k, v)]
  | (k0, v0) :: rest, k, v =>
      if k0 = k then (k0, v) :: rest else (k0, v0) :: aset rest k v

/-- The `AllState` blackboard: `mission.type` and `t` are modelled as
dedicated fields, every other attribute lives in `fields` keyed by name
(with `<name>_update_time` entries stored under their own keys). -/
structure AllState where
  mission_type : MissionEnum
  t : Time
  fields : List (String × PyObj)

def AllState.zero : AllState :=
  { mission_type := .IDLE, t := 0, fields := [] }

def getattrField (st : AllState) (k : String) : Option PyObj :=
  alookup st.fields k

def setattrField (st : AllState) (k : String) (v : PyObj) : AllState :=
  { st with fields := aset st.fields k v }

/-- Python exceptions that the executor can raise or observe.  `outOfFuel`
is the embedding's marker for loop budgets running out (real loops are
unbounded). -/
inductive PyErr where
  | keyboardInterrupt
  | valueError
  | assertionError
  | typeError
  | indexError
  | attributeError
  | keyError
  | outOfFuel
deriving DecidableEq, Repr

/-- Outcome of one call to an external component's `update`. -/
inductive UpdateOutcome where
  | raises
  | returns (r : Option PyObj)

/-- An external `Component` as an oracle: the result of its `n`-th `update`
call and its `healthy()` answer after `n` update calls. -/
structure CompBehavior where
  update : ℕ → UpdateOutcome
  healthy : ℕ → Bool

/-- `ComponentExecutor`'s mutable attributes (`__init__`, lines 222-237).
`calls` counts `update` invocations on the wrapped component, serving as
the oracle index; `uid` models Python object identity for the
`make_component` cache. -/
structure ComponentExecutor where
  inputs : List String := []
  output : List String := []
  essential : Bool := true
  do_debug : Bool := true
  print_stdout : Bool := true
  print_stderr : Bool := false
  last_update_time : Option Time := none
  next_update_time : Option Time := none
  had_exception : Bool := false
  dt : Time := 0
  num_overruns : ℕ := 0
  overrun_amount : Time := 0
  calls : ℕ := 0
  uid : ℕ := 0
deriving DecidableEq

/-- `ComponentExecutor._do_update` (lines 274-289): runs the component
under captured stdout/stderr; any exception is caught, sets
`had_exception`, and yields an absent result.  Output capture is pure side
effect and is not modelled. -/
def do_update (b : CompBehavior) (ex : ComponentExecutor) :
    ComponentExecutor × Option PyObj :=
  match b.update ex.calls with
  | .raises => ({ ex with had_exception := true, calls := ex.calls + 1 }, none)
  | .returns r => ({ ex with calls := ex.calls + 1 }, r)

/-- Building the argument tuple in `update_now` (lines 293-296):
`getattr(state, i)` raises `AttributeError` when an input field is absent
from the blackboard; with inputs `["all"]` the whole state is passed. -/
def argsCheckGo : List String → AllState → Except PyErr Unit
  | [], _ => .ok ()
  | i :: rest, st =>
      match getattrField st i with
      | none => .error .attributeError
      | some _ => argsCheckGo rest st

def argsCheck (inputs : List String) (st : AllState) : Except PyErr Unit :=
  if inputs = ["all"] then .ok () else argsCheckGo inputs st

/-- The write-back loop of `update_now` (lines 305-307): each output field
and its `_update_time` companion are written in declared order. -/
def writeOutputs (st : AllState) : List String → List PyObj → Time → AllState
  | k :: ko, v :: vo, t =>
      writeOutputs (setattrField (setattrField st k v) (k ++ "_update_time") (.ofTime t)) ko vo t
  | _, _, _ => st

/-- `ComponentExecutor.update_now` (lines 291-310).  The executor is
returned outside the `Except` because Python `self` mutations survive a
raised exception.  A non-absent result with several declared outputs must
be a sequence (`len` of a scalar raises `TypeError`) of matching length
(the `assert` raises `AssertionError`); with one declared output it is
written directly; with zero declared outputs `self.output[0]` raises
`IndexError`. -/
def update_now (b : CompBehavior) (t : Time) (ex : ComponentExecutor) (st : AllState) :
    ComponentExecutor × Except PyErr AllState :=
  match argsCheck ex.inputs st with
  | .error e => (ex, .error e)
  | .ok _ =>
    match do_update b ex with
    | (ex1, none) => (ex1, .ok st)
    | (ex1, some v) =>
      if 1 < ex1.output.length then
        match pyLen v with
        | none => (ex1, .error .typeError)
        | some n =>
          if n = ex1.output.length then
            (ex1, .ok (writeOutputs st ex1.output (pyElems v) t))
          else (ex1, .error .assertionError)
      else
        match ex1.output with
        | [] => (ex1, .error .indexError)
        | o :: _ =>
            (ex1, .ok (setattrField (setattrField st o v) (o ++ "_update_time") (.ofTime t)))

/-- The scheduling test on line 253: due when `next_update_time` is unset
or `t >= next_update_time`. -/
def updateDue (ex : ComponentExecutor) (t : Time) : Bool :=
  match ex.next_update_time with
  | none => true
  | some nut => decide (nut ≤ t)

/-- The advanced value of `next_update_time` computed at lines 258-261,
before the overrun check. -/
def advancedNUT (ex : ComponentExecutor) (t : Time) : Time :=
  match ex.next_update_time with
  | none => t + ex.dt
  | some n => n + ex.dt

/-- `ComponentExecutor.update` (lines 252-272): rate-limited scheduling.
Returns the updated executor and, on success, the new state together with
the Python return value (`True` iff the component ran). -/
def update (b : CompBehavior) (t : Time) (ex : ComponentExecutor) (st : AllState) :
    ComponentExecutor × Except PyErr (AllState × Bool) :=
  if updateDue ex t then
    match update_now b t ex st with
    | (ex1, .error e) => (ex1, .error e)
    | (ex1, .ok st1) =>
      let ex2 := { ex1 with last_update_time := some t }
      let nut1 := advancedNUT ex2 t
      let ex3 := { ex2 with next_update_time := some nut1 }
      if nut1 < t ∧ 0 < ex3.dt then
        ({ ex3 with
            num_overruns := ex3.num_overruns + 1,
            overrun_amount := ex3.overrun_amount + (t - nut1),
            next_update_time := some (t + ex3.dt) }, .ok (st1, true))
      else (ex3, .ok (st1, true))
  else (ex, .ok (st, false))

/-- `ComponentExecutor.healthy` (lines 243-244). -/
def healthy (b : CompBehavior) (ex : ComponentExecutor) : Bool :=
  b.healthy ex.calls && !ex.had_exception

/-! ### Computation-graph descriptor: `normalize_computation_graph` and
`load_computation_graph` (lines 51-83) -/

/-- One `inputs`/`outputs` entry of a raw per-component dict: a string, a
list of strings, or Python `None`. -/
inductive ConfigVal where
  | vstr (s : String)
  | vlist (l : List String)
  | vnone
deriving DecidableEq

/-- The value of a one-key component dict: either a dict (modelled as an
association list) or something else (which fails the `isinstance`
assertion). -/
inductive InnerVal where
  | idict (d : List (String × ConfigVal))
  | iother
deriving DecidableEq

/-- One entry of `run.computation_graph.components`: a bare string, a
dict (possibly malformed: several keys, or a non-dict value), or a value
of another type. -/
inductive GraphEntry where
  | estr (s : String)
  | edict (entries : List (String × InnerVal))
  | eother
deriving DecidableEq

/-- Normalized per-component settings: `inputs` and `outputs` lists. -/
structure CompSettings where
  inputs : List String := []
  outputs : List String := []
deriving DecidableEq

/-- The input/output-normalization cascade of lines 62-73: missing key or
`None` become `[]`, a bare string becomes a singleton, a list is kept. -/
def normalizeInOut (d : List (String × ConfigVal)) (key : String) : List String :=
  match alookup d key with
  | none => []
  | some (.vstr s) => [s]
  | some (.vlist l) => l
  | some .vnone => []

/-- `normalize_computation_graph` (lines 51-75).  `assert` failures are
`AssertionError`s, modelled as `.error` with the assertion message. -/
def normalize_computation_graph : List GraphEntry → Except String (List (String × CompSettings))
  | [] => .ok []
  | .estr s :: rest => do
      let tail ← normalize_computation_graph rest
      .ok ((s, { inputs := [], outputs := [] }) :: tail)
  | .edict entries :: rest =>
      if entries.length = 1 then
        match entries with
        | [(k, .idict v)] => do
            let tail ← normalize_computation_graph rest
            .ok ((k, { inputs := normalizeInOut v "inputs",
                       outputs := normalizeInOut v "outputs" }) :: tail)
        | [(_, .iother)] => .error "Component value is not a string or dict"
        | _ => .error "Component dict has more than one key"
      else .error "Component dict has more than one key"
  | .eother :: _ => .error "Component is not a string or dict"

/-- The global configuration set by `load_computation_graph` (lines 77-83):
`COMPONENTS` normalized, with `COMPONENT_ORDER` the key list (duplicates
kept) and `COMPONENT_SETTINGS` a dict built from the pairs (in Python,
`dict(...)` silently keeps the last entry for a repeated key). -/
structure GraphCfg where
  components : List (String × CompSettings)
deriving DecidableEq

def GraphCfg.order (g : GraphCfg) : List String :=
  g.components.map Prod.fst

/-- `COMPONENT_SETTINGS[k]`: last-wins dict lookup. -/
def GraphCfg.settingsLookup (g : GraphCfg) (k : String) : Option CompSettings :=
  ((g.components.filter (fun kc => kc.1 = k)).getLast?).map Prod.snd

def load_computation_graph (raw : List GraphEntry) : Except String GraphCfg := do
  let comps ← normalize_computation_graph raw
  .ok { components := comps }

/-! ### `validate_components` (lines 144-185) -/

/-- A runtime component's interface, as consulted by the validator:
`state_inputs()` and `state_outputs()`. -/
structure CompIface where
  state_inputs : List String := []
  state_outputs : List String := []
deriving DecidableEq

/-- Python `set.add`: insert if absent. -/
def insertSet (l : List String) (x : String) : List String :=
  if x ∈ l then l else l ++ [x]

/-- `set(provided)` built from a list. -/
def toSet (l : List String) : List String :=
  l.foldl insertSet []

/-- The input-check loop of lines 160-168 for one component `k` with
descriptor inputs `possible`, accumulated `provided` set and
`provided_all` flag. -/
def valCheckInputs (possible provided : List String) (provided_all : Bool) :
    List String → Except String Unit
  | [] => .ok ()
  | i :: rest =>
      if i = "all" then
        if possible = ["all"] then valCheckInputs possible provided provided_all rest
        else .error "component input all is not provided by previous components"
      else
        if provided_all ∨ i ∈ provided then
          if possible = ["all"] then valCheckInputs possible provided provided_all rest
          else
            if i ∈ possible then valCheckInputs possible provided provided_all rest
            else .error "component is not supposed to receive this input"
        else .error "component input is not provided by previous components"

/-- The required-output check of lines 169-174. -/
def valCheckOutputs (outputs : List String) : List String → Except String Unit
  | [] => .ok ()
  | o :: rest =>
      if o = "all" then
        if outputs = ["all"] then valCheckOutputs outputs rest
        else .error "component outputs are not provided by previous components"
      else
        if o ∈ outputs then valCheckOutputs outputs rest
        else .error "component does not output required output"

/-- The provided-set accumulation of lines 175-181. -/
def valAddOutputs (provided : List String) (provided_all : Bool) :
    List String → List String × Bool
  | [] => (provided, provided_all)
  | o :: rest =>
      if o = "all" then valAddOutputs provided true rest
      else valAddOutputs (insertSet provided o) provided_all rest

/-- The main walk of `validate_components` over `COMPONENT_ORDER`
(lines 152-181); components absent from the runtime map are skipped. -/
def validateLoop (g : GraphCfg) (components : List (String × CompIface)) :
    List String → List String → Bool → Except String (List String × Bool)
  | [], provided, provided_all => .ok (provided, provided_all)
  | k :: rest, provided, provided_all =>
      match alookup components k with
      | none => validateLoop g components rest provided provided_all
      | some c =>
        match g.settingsLookup k with
        | none => .error "KeyError COMPONENT_SETTINGS"
        | some st =>
          match valCheckInputs st.inputs provided provided_all c.state_inputs with
          | .error e => .error e
          | .ok _ =>
            match valCheckOutputs c.state_outputs st.outputs with
            | .error e => .error e
            | .ok _ =>
              validateLoop g components rest
                (valAddOutputs provided provided_all c.state_outputs).1
                (valAddOutputs provided provided_all c.state_outputs).2

/-- The final known-name check of lines 182-184. -/
def valCheckKnown (g : GraphCfg) : List (String × CompIface) → Except String Unit
  | [] => .ok ()
  | (k, _) :: rest =>
      match g.settingsLookup k with
      | none => .error "component is not known"
      | some _ => valCheckKnown g rest

/-- `validate_components` (lines 144-185): walks the graph order, checks
inputs/outputs, accumulates the provided set, then checks every runtime
name is known; returns the cumulative provided set. -/
def validate_components (g : GraphCfg) (components : List (String × CompIface))
    (provided0 : Option (List String)) : Except String (List String) :=
  let pr0 := match provided0 with
    | none => []
    | some l => toSet l
  match validateLoop g components g.order pr0 false with
  | .error e => .error e
  | .ok pa =>
    match valCheckKnown g components with
    | .error e => .error e
    | .ok _ => .ok pa.1

/-! ### The mission loop: `ExecutorBase.run`, `run_until_switch`,
`validate_sensors` (lines 479-731)

Loops are given a fuel budget (`PyErr.outOfFuel` marks exhaustion);
external nondeterminism (vehicle time, hardware faults, `KeyboardInterrupt`
arrival, the subclass `update`/`done` hooks, component behaviors) is an
oracle indexed by a logical clock that advances once per inner-loop
iteration.  Observable actions are recorded in an event trace. -/

/-- Observable events of one `run`: component lifecycle
(`initialize`/`cleanup`/logger close), pipeline bookkeeping, component
executions, exit reasons and logged events. -/
inductive Ev where
  | start (k : String)
  | stop (k : String)
  | close
  | pipelineStart (p : String)
  | setMission (m : MissionEnum)
  | compUpdate (k : String)
  | exitReason (r : String)
  | warnUnknown (p : String)
  | event (e : String)
deriving DecidableEq

def Ev.isLifecycle : Ev → Bool
  | .start _ => true
  | .stop _ => true
  | .close => true
  | _ => false

/-- The environment: everything external to `ExecutorBase.run`, indexed by
the logical clock. -/
structure ExecEnv where
  vtime : ℕ → Time
  interrupt : ℕ → Bool
  faults : ℕ → List String
  subUpdate : ℕ → Option String
  subDone : ℕ → Bool
  behaviors : String → CompBehavior
  requireEngaged : Bool

/-- One pipeline: the three ordered phases, holding component names whose
executors live in the shared store (pipelines alias executors). -/
structure Pipeline3 where
  perception : List String := []
  planning : List String := []
  other : List String := []
deriving DecidableEq

/-- The static configuration assembled before `run`:
`COMPONENT_ORDER`, the pipeline map, the always-run set, the names in
`ExecutorBase.all_components` (targets of `start`/`stop`), the declared
replay components and the initial pipeline, plus the initial executor
store. -/
structure ExecConfig where
  component_order : List String
  pipelines : List (String × Pipeline3)
  always_run : List String
  all_components : List String
  replayed_components : List String := []
  initial_pipeline : String := "drive"
  initStore : List (String × ComponentExecutor)

def lookupPipeline (cfg : ExecConfig) (p : String) : Option Pipeline3 :=
  alookup cfg.pipelines p

/-- The mutable state threaded through `run`: the executor store (aliased
by the pipelines), the blackboard, `current_pipeline`,
`last_hardware_faults`, the logical clock und the event trace. -/
structure ExecSt where
  store : List (String × ComponentExecutor)
  state : AllState
  current_pipeline : String
  last_hardware_faults : List String
  clk : ℕ
  trace : List Ev

def pushEv (s : ExecSt) (e : Ev) : ExecSt :=
  { s with trace := s.trace ++ [e] }

/-- Python `min(...)` of a list; empty input raises `ValueError`. -/
def listMin : List ℚ → Except PyErr ℚ
  | [] => .error .valueError
  | x :: xs => .ok (xs.foldl min x)

/-- `min([c.dt for c in components if c.dt != 0.0])` over the named
executors of the store. -/
def dtCandidates (store : List (String × ComponentExecutor)) (names : List String) : List ℚ :=
  ((names.filterMap (alookup store)).map ComponentExecutor.dt).filter (fun d => decide (d ≠ 0))

/-- `all(c.healthy() for c in ...)` over a phase's executors. -/
def allHealthy (env : ExecEnv) (store : List (String × ComponentExecutor))
    (names : List String) : Bool :=
  names.all (fun k =>
    match alookup store k with
    | none => true
    | some ex => healthy (env.behaviors k) ex)

/-- One unhealthy essential component in a phase (the fault scan after each
phase in `run_until_switch`). -/
def unhealthyEssential (env : ExecEnv) (store : List (String × ComponentExecutor))
    (k : String) : Bool :=
  match alookup store k with
  | none => false
  | some ex => !healthy (env.behaviors k) ex && ex.essential

/-- The per-phase fault policy of `run_until_switch` (lines 659-665 etc.):
an unhealthy essential component triggers `return "recovery"` unless the
current pipeline already is `recovery`; otherwise only a warning. -/
def phaseFault (env : ExecEnv) (s : ExecSt) (names : List String) : Bool :=
  decide (s.current_pipeline ≠ "recovery") && names.any (unhealthyEssential env s.store)

/-- The fault scan of `check_for_hardware_faults` (lines 574-599): events
for newly seen faults, with `disengaged` suppressed unless
`run.require_engaged`. -/
def chfLoop (requireEngaged : Bool) (last : List String) : List String → ExecSt → ExecSt
  | [], s => s
  | f :: rest, s =>
      if f = "disengaged" then
        if requireEngaged then
          if f ∈ last then chfLoop requireEngaged last rest s
          else chfLoop requireEngaged last rest (pushEv s (.event "Vehicle disengaged"))
        else chfLoop requireEngaged last rest s
      else
        if f ∈ last then chfLoop requireEngaged last rest s
        else chfLoop requireEngaged last rest (pushEv s (.event ("Hardware fault " ++ f)))

def check_for_hardware_faults (env : ExecEnv) (s : ExecSt) : ExecSt :=
  let faults := env.faults s.clk
  let s1 := chfLoop env.requireEngaged s.last_hardware_faults faults s
  { s1 with last_hardware_faults := faults }

/-- The per-component loop of `update_components` (lines 721-730): run each
named executor (`update_now` when `now`, else rate-limited `update`),
record an execution event when the component ran, and propagate a raised
exception (the store mutation made so far survives, as in Python). -/
def updateComponentsGo (env : ExecEnv) (now : Bool) :
    List String → ExecSt → ExecSt × Option PyErr
  | [], s => (s, none)
  | k :: rest, s =>
      match alookup s.store k with
      | none => updateComponentsGo env now rest s
      | some ex =>
        if now then
          match update_now (env.behaviors k) s.state.t ex s.state with
          | (ex1, .error e) => ({ s with store := aset s.store k ex1 }, some e)
          | (ex1, .ok st1) =>
              updateComponentsGo env now rest
                (pushEv { s with store := aset s.store k ex1, state := st1 } (.compUpdate k))
        else
          match update (env.behaviors k) s.state.t ex s.state with
          | (ex1, .error e) => ({ s with store := aset s.store k ex1 }, some e)
          | (ex1, .ok (st1, updated)) =>
              let s1 := { s with store := aset s.store k ex1, state := st1 }
              updateComponentsGo env now rest (if updated then pushEv s1 (.compUpdate k) else s1)

/-- `update_components` (lines 705-730): unless `force`, only components
listed in `COMPONENT_ORDER` run, in that order. -/
def updateComponents (env : ExecEnv) (cfg : ExecConfig) (names : List String)
    (now force : Bool) (s : ExecSt) : ExecSt × Option PyErr :=
  let order := if force then names else cfg.component_order.filter (fun k => decide (k ∈ names))
  updateComponentsGo env now order s

/-- `numsteps is not None and num_attempts >= numsteps` (line 630). -/
def numstepsHit (numsteps : Option ℕ) (attempts : ℕ) : Bool :=
  match numsteps with
  | some n => decide (n ≤ attempts)
  | none => false

/-- The retry loop of `validate_sensors` (lines 613-635). -/
def vsLoop (env : ExecEnv) (cfg : ExecConfig) (pl : Pipeline3) (numsteps : Option ℕ) :
    ℕ → ℕ → ExecSt → ExecSt × Except PyErr Bool
  | 0, _, s => (s, .error .outOfFuel)
  | fuel + 1, attempts, s =>
      let s := { s with state := { s.state with t := env.vtime s.clk } }
      if env.interrupt s.clk then (s, .error .keyboardInterrupt)
      else
        let s := check_for_hardware_faults env s
        match updateComponents env cfg pl.perception false false s with
        | (s, some e) => (s, .error e)
        | (s, none) =>
          let sensors_working := allHealthy env s.store pl.perception
          match updateComponents env cfg cfg.always_run false true s with
          | (s, some e) => (s, .error e)
          | (s, none) =>
            let attempts := attempts + 1
            if numstepsHit numsteps attempts then
              (s, .ok false)
            else
              let s := { s with clk := s.clk + 1 }
              if sensors_working then (s, .ok true)
              else vsLoop env cfg pl numsteps fuel attempts s

/-- `validate_sensors` (lines 601-635): trivially true without perception
components; otherwise `min` over the nonzero rates (raising `ValueError`
on an empty candidate list, before any component executes), then the retry
loop. -/
def validate_sensors (env : ExecEnv) (cfg : ExecConfig) (numsteps : Option ℕ)
    (fuel : ℕ) (s : ExecSt) : ExecSt × Except PyErr Bool :=
  match lookupPipeline cfg s.current_pipeline with
  | none => (s, .error .keyError)
  | some pl =>
    if pl.perception = [] then (s, .ok true)
    else
      match listMin (dtCandidates s.store (pl.perception ++ cfg.always_run)) with
      | .error e => (s, .error e)
      | .ok _ => vsLoop env cfg pl numsteps fuel 0 s

/-- The subclass-update switch test of lines 667-670: a pipeline was
requested and differs from the current one. -/
def switchRequested (nextReq : Option String) (current : String) : Bool :=
  match nextReq with
  | some p => decide (p ≠ current)
  | none => false

/-- The tick loop of `run_until_switch` (lines 646-702). -/
def rusLoop (env : ExecEnv) (cfg : ExecConfig) (pl : Pipeline3) :
    ℕ → ExecSt → ExecSt × Except PyErr (Option String)
  | 0, s => (s, .error .outOfFuel)
  | fuel + 1, s =>
      if env.subDone s.clk then (s, .ok none)
      else
        let s := { s with state := { s.state with t := env.vtime s.clk } }
        if env.interrupt s.clk then (s, .error .keyboardInterrupt)
        else
          let s := check_for_hardware_faults env s
          match updateComponents env cfg pl.perception false false s with
          | (s, some e) => (s, .error e)
          | (s, none) =>
            if phaseFault env s pl.perception then (s, .ok (some "recovery"))
            else
              let nextReq := env.subUpdate s.clk
              if switchRequested nextReq s.current_pipeline then (s, .ok nextReq)
              else
                match updateComponents env cfg pl.planning false false s with
                | (s, some e) => (s, .error e)
                | (s, none) =>
                  if phaseFault env s pl.planning then (s, .ok (some "recovery"))
                  else
                    match updateComponents env cfg pl.other false false s with
                    | (s, some e) => (s, .error e)
                    | (s, none) =>
                      if phaseFault env s pl.other then (s, .ok (some "recovery"))
                      else
                        match updateComponents env cfg cfg.always_run false true s with
                        | (s, some e) => (s, .error e)
                        | (s, none) =>
                          if phaseFault env s cfg.always_run then (s, .ok (some "recovery"))
                          else rusLoop env cfg pl fuel { s with clk := s.clk + 1 }

/-- `run_until_switch` (lines 637-702): entering with `recovery` current
sets `mission.type` to `RECOVERY_STOP` first; then the looper period is
`min` over nonzero rates (`ValueError` when none), then the tick loop. -/
def run_until_switch (env : ExecEnv) (cfg : ExecConfig) (fuel : ℕ) (s : ExecSt) :
    ExecSt × Except PyErr (Option String) :=
  let s := if s.current_pipeline = "recovery" then
      pushEv { s with state := { s.state with mission_type := .RECOVERY_STOP } }
        (.setMission .RECOVERY_STOP)
    else s
  match lookupPipeline cfg s.current_pipeline with
  | none => (s, .error .keyError)
  | some pl =>
    match listMin (dtCandidates s.store
        (pl.perception ++ pl.planning ++ pl.other ++ cfg.always_run)) with
    | .error e => (s, .error e)
    | .ok _ => rusLoop env cfg pl fuel s

/-- Top of each outer-loop iteration (lines 526-529): set vehicle time,
record the pipeline-start event. -/
def recordPipelineStart (env : ExecEnv) (s : ExecSt) : ExecSt :=
  pushEv { s with state := { s.state with t := env.vtime s.clk } }
    (.pipelineStart s.current_pipeline)

/-- The `KeyboardInterrupt` handler of the outer loop (lines 549-561):
interrupt during `recovery` breaks with its exit reason, otherwise switch
to `recovery` and continue.  `.inl` terminates the loop with a result,
`.inr` continues with the new state. -/
def interruptOutcome (s : ExecSt) : (ExecSt × Except PyErr Unit) ⊕ ExecSt :=
  if s.current_pipeline = "recovery" then
    .inl (pushEv s (.exitReason "Ctrl+C interrupt during recovery"), .ok ())
  else
    .inr (pushEv { s with current_pipeline := "recovery" }
          (.event "Ctrl+C pressed, switching to recovery mode"))

/-- Switch handling in the outer loop (lines 535-548): unknown pipeline
names are replaced by `recovery` with a warning; `recovery` to `recovery`
is fatal; otherwise switch and re-validate sensors with a one-step probe,
falling back to `recovery` when the probe fails. -/
def handleSwitch (env : ExecEnv) (cfg : ExecConfig) (fuelInner : ℕ) (s2 : ExecSt)
    (next0 : String) : (ExecSt × Except PyErr Unit) ⊕ ExecSt :=
  let s3 := if (lookupPipeline cfg next0).isNone then pushEv s2 (.warnUnknown next0) else s2
  let next := if (lookupPipeline cfg next0).isNone then "recovery" else next0
  if s3.current_pipeline = "recovery" ∧ next = "recovery" then
    .inl (pushEv s3 (.exitReason "recovery pipeline not working"), .ok ())
  else
    let s4 := { s3 with current_pipeline := next }
    match validate_sensors env cfg (some 1) fuelInner s4 with
    | (s5, .ok true) => .inr s5
    | (s5, .ok false) =>
        .inr (pushEv { s5 with current_pipeline := "recovery" }
              (.event "Sensors in desired pipeline are not working, switching to recovery"))
    | (s5, .error .keyboardInterrupt) => interruptOutcome s5
    | (s5, .error e) => .inl (s5, .error e)

/-- The outer mission loop of `run` (lines 525-561). -/
def runOuterLoop (env : ExecEnv) (cfg : ExecConfig) (fuelInner : ℕ) :
    ℕ → ExecSt → ExecSt × Except PyErr Unit
  | 0, s => (s, .error .outOfFuel)
  | fuel + 1, s =>
      let s1 := recordPipelineStart env s
      let step : (ExecSt × Except PyErr Unit) ⊕ ExecSt :=
        match run_until_switch env cfg fuelInner s1 with
        | (s2, .ok none) => .inl (pushEv s2 (.exitReason "normal exit"), .ok ())
        | (s2, .ok (some next0)) => handleSwitch env cfg fuelInner s2 next0
        | (s2, .error .keyboardInterrupt) => interruptOutcome s2
        | (s2, .error e) => .inl (s2, .error e)
      match step with
      | .inl r => r
      | .inr s' => runOuterLoop env cfg fuelInner fuel s'

/-- Does any pipeline contain component `c` (the replay sanity check of
lines 493-500)? -/
def pipelineContains (cfg : ExecConfig) (c : String) : Bool :=
  cfg.pipelines.any (fun np =>
    decide (c ∈ np.2.perception) || decide (c ∈ np.2.planning) || decide (c ∈ np.2.other))

/-- The shutdown tail of `run` (lines 567-571): stop every component in
`all_components`, then close the logging manager. -/
def finishRun (cfg : ExecConfig) (s : ExecSt) : ExecSt × Except PyErr Unit :=
  ({ s with trace := s.trace ++ cfg.all_components.map Ev.stop ++ [Ev.close] }, .ok ())

/-- The executor state at entry of `run`, before any component starts. -/
def runInitState (cfg : ExecConfig) : ExecSt :=
  { store := cfg.initStore, state := AllState.zero,
    current_pipeline := cfg.initial_pipeline, last_hardware_faults := [],
    clk := 0, trace := [] }

/-- The executor state after the start loop (lines 503-508): every
component in `all_components` has been started and the blackboard reset to
`AllState.zero()` with mission `IDLE`. -/
def runStartState (cfg : ExecConfig) : ExecSt :=
  { runInitState cfg with
    trace := cfg.all_components.map Ev.start,
    state := { AllState.zero with mission_type := .IDLE } }

/-- `ExecutorBase.run` (lines 479-572): sanity checks (early returns /
replay `ValueError`), start all components, sensor validation (with the
`KeyboardInterrupt` catch), the outer loop, then shutdown.  Exceptions
other than `KeyboardInterrupt` propagate and skip the shutdown tail, as in
the source. -/
def runExec (env : ExecEnv) (cfg : ExecConfig) (fuelOuter fuelInner : ℕ) :
    ExecSt × Except PyErr Unit :=
  if (lookupPipeline cfg (runInitState cfg).current_pipeline).isNone then
    (runInitState cfg, .ok ())
  else if (lookupPipeline cfg "recovery").isNone then (runInitState cfg, .ok ())
  else if cfg.replayed_components.any (fun c => !pipelineContains cfg c) then
    (runInitState cfg, .error .valueError)
  else
    match validate_sensors env cfg none fuelInner (runStartState cfg) with
    | (s3, .error .keyboardInterrupt) =>
        finishRun cfg (pushEv (pushEv s3 (.event "Ctrl+C interrupt during sensor validation"))
          (.exitReason "Sensor validation failed"))
    | (s3, .error e) => (s3, .error e)
    | (s3, .ok false) =>
        finishRun cfg (pushEv (pushEv s3 (.event "Sensor validation failed"))
          (.exitReason "Sensor validation failed"))
    | (s3, .ok true) =>
        match runOuterLoop env cfg fuelInner fuelOuter s3 with
        | (s4, .ok _) => finishRun cfg (pushEv s4 (.event "Mission execution ended"))
        | (s4, .error e) => (s4, .error e)

/-! ### `ExecutorBase.make_component` (lines 375-410) -/

/-- A component configuration descriptor: either a `"module.Class"` string
or a dict with the recognized keys (`type` plus the optional override
keys; `args`/`module` only influence construction, which is external). -/
inductive ConfigInfo where
  | cstr (s : String)
  | cdict (type_ : String) (essential : Option Bool) (rate : Option ℚ)
      (printFlag : Option Bool) (debugFlag : Option Bool) (multiprocess : Bool)
deriving DecidableEq

/-- What the external construction pipeline (`make_class`, the `Component`
type check, replay substitution) yields: the interface the executor is
built from. -/
structure ComponentHandle where
  state_inputs : List String := []
  state_outputs : List String := []
  rate : Option ℚ := none

/-- `ComponentExecutor.__init__` from a constructed component (lines
222-237); `uid` models the identity of the freshly constructed object. -/
def ComponentExecutor.ofComponent (c : ComponentHandle) (uid : ℕ) : ComponentExecutor :=
  { inputs := c.state_inputs, output := c.state_outputs,
    dt := match c.rate with
      | some r => 1 / r
      | none => 0,
    uid := uid }

/-- The descriptor-override block of lines 402-407.  Note that for a dict
descriptor, `config_info.get('print', True)` is assigned to both print
flags even when the key is absent. -/
def applyConfigOverrides (config_info : ConfigInfo) (e : ComponentExecutor) :
    ComponentExecutor :=
  match config_info with
  | .cstr _ => e
  | .cdict _ ess rate pr dbg _ =>
    let e1 := { e with essential := ess.getD true }
    let e2 := match rate with
      | some r => { e1 with dt := 1 / r }
      | none => e1
    let e3 := { e2 with print_stdout := pr.getD true, print_stderr := pr.getD true }
    { e3 with do_debug := dbg.getD true }

/-- `ExecutorBase.all_components` together with a fresh-identity counter
for newly constructed executors. -/
structure FactoryCtx where
  all_components : List ((String × ConfigInfo) × ComponentExecutor) := []
  fresh : ℕ := 0

def clookup : List ((String × ConfigInfo) × ComponentExecutor) → String × ConfigInfo →
    Option ComponentExecutor
  | [], _ => none
  | (k, v) :: rest, key => if k = key then some v else clookup rest key

/-- `ExecutorBase.make_component` (lines 375-410): the cache is keyed by
`str((component_name, config_info))`, modelled by the pair itself; a miss
constructs via the external `catalog`, applies descriptor overrides and
caches.  (The untested multiprocess wrapper lives outside this module and
does not change the caching.) -/
def make_component (catalog : String → ConfigInfo → ComponentHandle) (ctx : FactoryCtx)
    (config_info : ConfigInfo) (component_name : String) :
    FactoryCtx × ComponentExecutor :=
  match clookup ctx.all_components (component_name, config_info) with
  | some e => (ctx, e)
  | none =>
    let comp := catalog component_name config_info
    let e := applyConfigOverrides config_info (ComponentExecutor.ofComponent comp ctx.fresh)
    ({ all_components := ctx.all_components ++ [((component_name, config_info), e)],
       fresh := ctx.fresh + 1 }, e)

/-- `n + 1` successive `make_component` calls with the same pair, returning
the last call's result. -/
def make_component_repeat (catalog : String → ConfigInfo → ComponentHandle)
    (config_info : ConfigInfo) (component_name : String) :
    ℕ → FactoryCtx → FactoryCtx × ComponentExecutor
  | 0, ctx => make_component catalog ctx config_info component_name
  | n + 1, ctx =>
      make_component_repeat catalog config_info component_name n
        (make_component catalog ctx config_info component_name).1

/-! ### Claim-side (specification) predicates for the graph validator

These follow the wording of the specification, not the source: the claim
version states exactly the conditions the claim lists, the amended version
adds what the source additionally enforces.  Both are compared with
`validate_components` in the theorems below. -/

def exOk {ε α : Type _} : Except ε α → Bool
  | .ok _ => true
  | .error _ => false

/-- The components actually processed by the walk: graph order restricted
to the runtime map (in order, with multiplicity). -/
def processedComps (components : List (String × CompIface)) : List String →
    List (String × CompIface)
  | [] => []
  | k :: rest =>
      match alookup components k with
      | none => processedComps components rest
      | some c => (k, c) :: processedComps components rest

/-- Spec wording: input `i` "is in the already-provided set, or is among a
prior component's outputs in this phase, or a prior component in this
phase produced `all`". -/
def specPriorProvides (pr0 : List String) (prior : List (String × CompIface))
    (i : String) : Bool :=
  decide (i ∈ pr0) || prior.any (fun kc => decide (i ∈ kc.2.state_outputs)) ||
    prior.any (fun kc => decide ("all" ∈ kc.2.state_outputs))

/-- The claim's walk, exactly as worded: each input is `"all"` (legal only
with descriptor `["all"]`) or upstream-provided; each required output
appears in `state_outputs()`. -/
def claimSpecWalk (g : GraphCfg) (pr0 : List String) :
    List (String × CompIface) → List (String × CompIface) → Bool
  | _, [] => true
  | prior, (k, c) :: rest =>
      (match g.settingsLookup k with
       | none => false
       | some st =>
         c.state_inputs.all (fun i =>
           if i = "all" then decide (st.inputs = ["all"])
           else specPriorProvides pr0 prior i)
         && st.outputs.all (fun o => decide (o ∈ c.state_outputs)))
      && claimSpecWalk g pr0 (prior ++ [(k, c)]) rest

/-- Claim C6's right-hand side, as stated. -/
def claimSpec (g : GraphCfg) (components : List (String × CompIface))
    (pr0 : List String) : Bool :=
  claimSpecWalk g pr0 [] (processedComps components g.order)
    && components.all (fun kc => (g.settingsLookup kc.1).isSome)

/-- The amended walk: additionally, a non-`"all"` input must be among the
descriptor's declared inputs unless the descriptor declares `["all"]`, and
a required output `"all"` demands `state_outputs()` to be exactly
`["all"]`. -/
def amendedSpecWalk (g : GraphCfg) (pr0 : List String) :
    List (String × CompIface) → List (String × CompIface) → Bool
  | _, [] => true
  | prior, (k, c) :: rest =>
      (match g.settingsLookup k with
       | none => false
       | some st =>
         c.state_inputs.all (fun i =>
           if i = "all" then decide (st.inputs = ["all"])
           else specPriorProvides pr0 prior i
             && (decide (st.inputs = ["all"]) || decide (i ∈ st.inputs)))
         && st.outputs.all (fun o =>
           if o = "all" then decide (c.state_outputs = ["all"])
           else decide (o ∈ c.state_outputs)))
      && amendedSpecWalk g pr0 (prior ++ [(k, c)]) rest

/-- Claim C6's right-hand side, amended to what the source enforces. -/
def amendedSpec (g : GraphCfg) (components : List (String × CompIface))
    (pr0 : List String) : Bool :=
  amendedSpecWalk g pr0 [] (processedComps components g.order)
    && components.all (fun kc => (g.settingsLookup kc.1).isSome)

/-! ### Concrete instances used by witnesses and counterexamples -/

/-- A component behavior whose every `update` call raises. -/
def bRaise : CompBehavior :=
  { update := fun _ => .raises, healthy := fun _ => true }

/-- A minimal executor consuming the whole blackboard. -/
def exAll : ComponentExecutor :=
  { inputs := ["all"], output := [] }

def exFlagged : ComponentExecutor :=
  { inputs := ["all"], output := [], had_exception := true }

/-- Behavior returning an absent result on every call. -/
def bNone : CompBehavior :=
  { update := fun _ => .returns none, healthy := fun _ => true }

/-- An executor with `dt = 1` whose next update was scheduled at time 0;
updating at `t = 2` (an `update_now` taking `2 * dt`) overruns by one
period. -/
def exSched : ComponentExecutor :=
  { inputs := ["all"], output := [], dt := 1, next_update_time := some 0 }

/-- The executor state produced by updating `exSched` at time 2. -/
def exSchedRes : ComponentExecutor :=
  { inputs := ["all"], output := [], dt := 1, last_update_time := some 2,
    next_update_time := some 3, num_overruns := 1, overrun_amount := 1, calls := 1 }

/-- A component behavior that always returns a length-1 sequence. -/
def bArity : CompBehavior :=
  { update := fun _ => .returns (some (.pylist [.atom 0])), healthy := fun _ => true }

/-- An executor declaring two outputs (so a length-1 result mismatches). -/
def exArity : ComponentExecutor :=
  { inputs := ["all"], output := ["a", "b"], dt := 1 }

def envC3 : ExecEnv :=
  { vtime := fun n => (n : ℚ), interrupt := fun _ => false, faults := fun _ => [],
    subUpdate := fun _ => none, subDone := fun _ => false,
    behaviors := fun _ => bArity, requireEngaged := false }

def cfgC3 : ExecConfig :=
  { component_order := ["A"],
    pipelines := [("drive", { other := ["A"] }), ("recovery", { other := ["A"] })],
    always_run := [],
    all_components := ["A"],
    initial_pipeline := "drive",
    initStore := [("A", exArity)] }

/-- A healthy no-output executor with a 1 Hz rate. -/
def exPlain : ComponentExecutor :=
  { inputs := ["all"], output := [], dt := 1 }

/-- A zero-rate executor (`rate() is None`, so `dt = 0`). -/
def exZero : ComponentExecutor :=
  { inputs := ["all"], output := [], dt := 0 }

/-- Starting state in `recovery`, for the C5 witness. -/
def sRec : ExecSt :=
  { store := [("A", exPlain)], state := AllState.zero, current_pipeline := "recovery",
    last_hardware_faults := [], clk := 0, trace := [] }

def envBenign : ExecEnv :=
  { vtime := fun n => (n : ℚ), interrupt := fun _ => false, faults := fun _ => [],
    subUpdate := fun _ => none, subDone := fun _ => false,
    behaviors := fun _ => bNone, requireEngaged := false }

/-- Environment whose subclass `update` always requests the unknown
pipeline `ghost`. -/
def envGhost : ExecEnv :=
  { envBenign with subUpdate := fun _ => some "ghost" }

/-- Environment whose subclass reports `done()` immediately: the mission
loop terminates normally on its first tick. -/
def envDone : ExecEnv :=
  { envBenign with subDone := fun _ => true }

def cfgRec : ExecConfig :=
  { component_order := ["A"],
    pipelines := [("drive", { other := ["A"] }), ("recovery", { other := ["A"] })],
    always_run := [],
    all_components := ["A"],
    initial_pipeline := "drive",
    initStore := [("A", exPlain)] }

/-- Configuration whose only pipeline components have `dt = 0`, for C10. -/
def cfgZero : ExecConfig :=
  { component_order := ["Z"],
    pipelines := [("drive", { perception := ["Z"] }), ("recovery", { perception := ["Z"] })],
    always_run := [],
    all_components := ["Z"],
    initial_pipeline := "drive",
    initStore := [("Z", exZero)] }

def sZero : ExecSt :=
  { store := [("Z", exZero)], state := AllState.zero, current_pipeline := "drive",
    last_hardware_faults := [], clk := 0, trace := [] }

/-- Starting state in `recovery`, for the C4 witness. -/
def sRec4 : ExecSt :=
  { store := [("A", exPlain)], state := AllState.zero, current_pipeline := "recovery",
    last_hardware_faults := [], clk := 0, trace := [] }

/-- Descriptor for C6's counterexample: component `B` declares no inputs. -/
def gC6 : GraphCfg :=
  { components := [("B", { inputs := [], outputs := [] })] }

/-- Runtime map for C6's counterexample: `B` consumes field `x`, which the
earlier phase provided — the claim's conditions hold, yet the source
rejects `x` because it is not among `B`'s declared descriptor inputs. -/
def compsC6 : List (String × CompIface) :=
  [("B", { state_inputs := ["x"], state_outputs := [] })]

/-- Descriptor for C6's witness: `B` declares input `x`. -/
def gC6W : GraphCfg :=
  { components := [("B", { inputs := ["x"], outputs := [] })] }

/-- Runtime map for C6's witness: `B` consumes `x` and produces `y`. -/
def compsC6W : List (String × CompIface) :=
  [("B", { state_inputs := ["x"], state_outputs := ["y"] })]

def catalog0 : String → ConfigInfo → ComponentHandle := fun _ _ => {}

def mkCtx0 : FactoryCtx := {}

/-- A descriptor entry of the shape the normalizer accepts: a bare string
or a one-key dict whose value is a dict. -/
def wellFormedEntry : GraphEntry → Bool
  | .estr _ => true
  | .edict [(_, .idict _)] => true
  | _ => false

/-- The component name carried by each (well-formed) raw entry, in order
and with multiplicity. -/
def rawNames : List GraphEntry → List String
  | [] => []
  | .estr s :: rest => s :: rawNames rest
  | .edict [(k, .idict _)] :: rest => k :: rawNames rest
  | .edict _ :: rest => rawNames rest
  | .eother :: rest => rawNames rest

/-- No event in `Δ` is a lifecycle (`start`/`stop`/`close`) event: what the
loop bodies are allowed to append to the trace. -/
def noLifecycle (Δ : List Ev) : Prop := ∀ e ∈ Δ, e.isLifecycle = false

/-- The state `run_until_switch` actually runs on: `mission.type` is set to
`RECOVERY_STOP` first when the current pipeline is `recovery`
(lines 639-640). -/
def rusEntry (s : ExecSt) : ExecSt :=
  if s.current_pipeline = "recovery" then
    pushEv { s with state := { s.state with mission_type := .RECOVERY_STOP } }
      (.setMission .RECOVERY_STOP)
  else s

/-- The `ExecSt` carried by either outcome of a loop-step decision. -/
def stepState : (ExecSt × Except PyErr Unit) ⊕ ExecSt → ExecSt
  | .inl (st, _) => st
  | .inr st => st

/-! ## Executor-level lemmas -/

lemma do_update_had_mono (b : CompBehavior) (ex : ComponentExecutor)
    (h : ex.had_exception = true) : (do_update b ex).1.had_exception = true := by
  unfold do_update
  cases b.update ex.calls <;> simp [h]

lemma do_update_preserves (b : CompBehavior) (ex : ComponentExecutor) :
    (do_update b ex).1.dt = ex.dt ∧
    (do_update b ex).1.next_update_time = ex.next_update_time ∧
    (do_update b ex).1.num_overruns = ex.num_overruns ∧
    (do_update b ex).1.overrun_amount = ex.overrun_amount := by
  unfold do_update
  cases b.update ex.calls <;> simp

lemma update_now_fst (b : CompBehavior) (t : Time) (ex : ComponentExecutor) (st : AllState) :
    (update_now b t ex st).1 = ex ∨ (update_now b t ex st).1 = (do_update b ex).1 := by
  unfold update_now
  rcases hc : argsCheck ex.inputs st with e | u
  · left; rfl
  · right
    rcases hdo : do_update b ex with ⟨ex1, r⟩
    rcases r with _ | v
    · rfl
    · simp only
      split
      · rcases pyLen v with _ | n
        · rfl
        · simp only
          split <;> rfl
      · rcases hout : ex1.output with _ | ⟨o, rest⟩ <;> rfl

lemma update_now_had_mono (b : CompBehavior) (t : Time) (ex : ComponentExecutor)
    (st : AllState) (h : ex.had_exception = true) :
    (update_now b t ex st).1.had_exception = true := by
  rcases update_now_fst b t ex st with hf | hf <;> rw [hf]
  · exact h
  · exact do_update_had_mono b ex h

lemma update_now_preserves (b : CompBehavior) (t : Time) (ex : ComponentExecutor)
    (st : AllState) :
    (update_now b t ex st).1.dt = ex.dt ∧
    (update_now b t ex st).1.next_update_time = ex.next_update_time ∧
    (update_now b t ex st).1.num_overruns = ex.num_overruns ∧
    (update_now b t ex st).1.overrun_amount = ex.overrun_amount := by
  rcases update_now_fst b t ex st with hf | hf <;> rw [hf]
  · exact ⟨rfl, rfl, rfl, rfl⟩
  · exact do_update_preserves b ex

lemma update_had_mono (b : CompBehavior) (t : Time) (ex : ComponentExecutor)
    (st : AllState) (h : ex.had_exception = true) :
    (update b t ex st).1.had_exception = true := by
  unfold update
  split
  · rcases hu : update_now b t ex st with ⟨ex1, r⟩
    have h1 : ex1.had_exception = true := by
      have := update_now_had_mono b t ex st h
      rw [hu] at this
      exact this
    rcases r with e | st1
    · exact h1
    · simp only
      split <;> exact h1
  · exact h

/-! ## C1 -/

/-- Claim C1: an exception raised by a component during
`ComponentExecutor._do_update` is caught there (the call returns normally
with an absent result instead of propagating, so nothing reaches the
mission loop), the catch sets `had_exception`; no executor operation ever
resets the flag; and `healthy()` is false whenever the flag is set. -/
theorem C1_exception_caught_and_latched :
    (∀ (b : CompBehavior) (ex : ComponentExecutor), b.update ex.calls = .raises →
       do_update b ex = ({ ex with had_exception := true, calls := ex.calls + 1 }, none))
    ∧ (∀ (b : CompBehavior) (t : Time) (ex : ComponentExecutor) (st : AllState),
        b.update ex.calls = .raises → argsCheck ex.inputs st = .ok () →
        update_now b t ex st =
          ({ ex with had_exception := true, calls := ex.calls + 1 }, .ok st))
    ∧ (∀ (b : CompBehavior) (t : Time) (ex : ComponentExecutor) (st : AllState),
        ex.had_exception = true → (update_now b t ex st).1.had_exception = true)
    ∧ (∀ (b : CompBehavior) (t : Time) (ex : ComponentExecutor) (st : AllState),
        ex.had_exception = true → (update b t ex st).1.had_exception = true)
    ∧ (∀ (b : CompBehavior) (ex : ComponentExecutor),
        ex.had_exception = true → healthy b ex = false) := by
  refine ⟨?_, ?_, ?_, ?_, ?_⟩
  · intro b ex h
    unfold do_update
    rw [h]
  · intro b t ex st h hargs
    unfold update_now
    rw [hargs]
    unfold do_update
    rw [h]
  · intro b t ex st h
    exact update_now_had_mono b t ex st h
  · intro b t ex st h
    exact update_had_mono b t ex st h
  · intro b ex h
    simp [healthy, h]

theorem C1_witness :
    do_update bRaise exAll = ({ exAll with had_exception := true, calls := 1 }, none)
    ∧ update_now bRaise 0 exAll AllState.zero =
        ({ exAll with had_exception := true, calls := 1 }, .ok AllState.zero)
    ∧ (update_now bRaise 0 exFlagged AllState.zero).1.had_exception = true
    ∧ (update bRaise 0 exFlagged AllState.zero).1.had_exception = true
    ∧ healthy bRaise exFlagged = false := by
  refine ⟨C1_exception_caught_and_latched.1 bRaise exAll rfl,
          C1_exception_caught_and_latched.2.1 bRaise 0 exAll AllState.zero rfl rfl,
          C1_exception_caught_and_latched.2.2.1 bRaise 0 exFlagged AllState.zero rfl,
          C1_exception_caught_and_latched.2.2.2.1 bRaise 0 exFlagged AllState.zero rfl,
          C1_exception_caught_and_latched.2.2.2.2 bRaise exFlagged rfl⟩

/-! ## C7 -/

/-- Claim C7: when `update(t, state)` runs a component with `dt > 0` and
the advanced `next_update_time` is still earlier than `t`, exactly one
overrun is counted, `t - next_update_time` is added to `overrun_amount`,
and `next_update_time` is reset to `t + dt` (the lost tick is not made
up). -/
theorem C7_overrun_accounting (b : CompBehavior) (t : Time) (ex ex1 : ComponentExecutor)
    (st st1 : AllState)
    (hrun : update b t ex st = (ex1, .ok (st1, true)))
    (hdt : 0 < ex.dt)
    (hover : advancedNUT ex t < t) :
    ex1.num_overruns = ex.num_overruns + 1 ∧
    ex1.overrun_amount = ex.overrun_amount + (t - advancedNUT ex t) ∧
    ex1.next_update_time = some (t + ex.dt) := by
  unfold update at hrun
  split at hrun
  · rcases hu : update_now b t ex st with ⟨exA, r⟩
    rw [hu] at hrun
    have hpres := update_now_preserves b t ex st
    rw [hu] at hpres
    obtain ⟨hpdt, hpnut, hpnum, hpamt⟩ := hpres
    simp only at hpdt hpnut hpnum hpamt
    rcases r with e | stA
    · simp at hrun
    · simp only at hrun
      have hadv : advancedNUT { exA with last_update_time := some t } t = advancedNUT ex t := by
        unfold advancedNUT
        simp only
        rw [hpnut, hpdt]
      rw [hadv] at hrun
      rw [if_pos ⟨hover, show (0 : ℚ) < exA.dt by rw [hpdt]; exact hdt⟩] at hrun
      have hex1 := congrArg Prod.fst hrun
      simp only at hex1
      rw [← hex1]
      refine ⟨?_, ?_, ?_⟩
      · simp [hpnum]
      · simp [hpamt]
      · simp [hpdt]
  · simp at hrun

theorem C7_witness :
    exSchedRes.num_overruns = exSched.num_overruns + 1 ∧
    exSchedRes.overrun_amount = exSched.overrun_amount + (2 - advancedNUT exSched 2) ∧
    exSchedRes.next_update_time = some (2 + exSched.dt) :=
  C7_overrun_accounting bNone 2 exSched exSchedRes AllState.zero AllState.zero
    (by norm_num [update, updateDue, update_now, argsCheck, do_update, bNone, exSched,
      advancedNUT, exSchedRes])
    (by norm_num [exSched]) (by norm_num [advancedNUT, exSched])

/-! ## C3 -/

/-- Claim C3 counterexample: a two-output component returning a length-1
sequence makes `update_now` raise `AssertionError` (not merely record it),
and that exception propagates out of the entire mission loop: `run` ends
with the error, no `stop`/cleanup happens and the logging manager is never
closed — contradicting "recorded but not raised out of the loop, the loop
continues".  The true parts also visible here: `had_exception` stays
false. -/
theorem C3_counterexample :
    (update_now bArity 1 exArity AllState.zero).2 = .error .assertionError
    ∧ (update_now bArity 1 exArity AllState.zero).1.had_exception = false
    ∧ (runExec envC3 cfgC3 3 3).2 = .error .assertionError
    ∧ Ev.stop "A" ∉ (runExec envC3 cfgC3 3 3).1.trace
    ∧ Ev.close ∉ (runExec envC3 cfgC3 3 3).1.trace
    ∧ Ev.start "A" ∈ (runExec envC3 cfgC3 3 3).1.trace := by
  refine ⟨rfl, rfl, rfl, ?_, ?_, ?_⟩ <;> decide

/-- Claim C3 as amended: a non-absent result whose length differs from the
several declared outputs raises an `AssertionError` out of
`update_now`/`update` (nothing in the loop catches it, as the
counterexample run shows); before the raise no blackboard field or
update-time has been written, and the executor is unchanged except for
the call counter — in particular `had_exception` is not set, so the
component is not marked unhealthy by this. -/
theorem C3_amended (b : CompBehavior) (t : Time) (ex : ComponentExecutor) (st : AllState)
    (v : PyObj) (n : ℕ)
    (hout : 1 < ex.output.length)
    (hret : b.update ex.calls = .returns (some v))
    (hargs : argsCheck ex.inputs st = .ok ())
    (hlen : pyLen v = some n) (hne : n ≠ ex.output.length) :
    update_now b t ex st = ({ ex with calls := ex.calls + 1 }, .error .assertionError)
    ∧ (updateDue ex t = true →
        update b t ex st = ({ ex with calls := ex.calls + 1 }, .error .assertionError)) := by
  have h1 : update_now b t ex st = ({ ex with calls := ex.calls + 1 }, .error .assertionError) := by
    unfold update_now
    rw [hargs]
    unfold do_update
    rw [hret]
    simp only
    rw [if_pos (by simpa using hout)]
    have hlen1 : pyLen v = some n := hlen
    rw [show ({ ex with calls := ex.calls + 1 } : ComponentExecutor).output = ex.output from rfl]
    rw [hlen1]
    simp [hne]
  refine ⟨h1, fun hdue => ?_⟩
  unfold update
  rw [hdue]
  simp only [if_true]
  rw [h1]

theorem C3_witness :
    update_now bArity 1 exArity AllState.zero =
      ({ exArity with calls := 1 }, .error .assertionError)
    ∧ update bArity 1 exArity AllState.zero =
      ({ exArity with calls := 1 }, .error .assertionError) := by
  have h := C3_amended bArity 1 exArity AllState.zero (.pylist [.atom 0]) 1
    (by decide) rfl rfl rfl (by decide)
  exact ⟨h.1, h.2 rfl⟩

/-! ## C8 -/

lemma clookup_append (l : List ((String × ConfigInfo) × ComponentExecutor))
    (key : String × ConfigInfo) (v : ComponentExecutor)
    (h : clookup l key = none) : clookup (l ++ [(key, v)]) key = some v := by
  induction l with
  | nil => simp [clookup]
  | cons kv rest ih =>
    rcases kv with ⟨k1, v1⟩
    by_cases hk : k1 = key
    · rw [clookup, if_pos hk] at h
      exact absurd h (by simp)
    · rw [clookup, if_neg hk] at h
      rw [List.cons_append, clookup, if_neg hk]
      exact ih h

lemma applyConfigOverrides_uid (c : ConfigInfo) (e : ComponentExecutor) :
    (applyConfigOverrides c e).uid = e.uid := by
  cases c with
  | cstr s => rfl
  | cdict ty ess rate pr dbg mp => cases rate <;> rfl

lemma make_component_stable (catalog : String → ConfigInfo → ComponentHandle)
    (ctx : FactoryCtx) (config_info : ConfigInfo) (component_name : String) :
    make_component catalog (make_component catalog ctx config_info component_name).1
      config_info component_name =
    make_component catalog ctx config_info component_name := by
  rcases h : clookup ctx.all_components (component_name, config_info) with _ | e
  · unfold make_component
    rw [h]
    simp only
    rw [clookup_append _ _ _ h]
  · unfold make_component
    rw [h]
    simp only
    rw [h]

/-- Claim C8: repeated `make_component` calls with the same
`(name, descriptor)` pair return the same executor instance and leave the
cache unchanged after the first call; a cache miss constructs exactly one
new executor (fresh identity, counter bumped once) and a cache hit
constructs nothing. -/
theorem C8_make_component_cached (catalog : String → ConfigInfo → ComponentHandle)
    (ctx : FactoryCtx) (config_info : ConfigInfo) (component_name : String) :
    (∀ n, make_component_repeat catalog config_info component_name n ctx =
       make_component catalog ctx config_info component_name)
    ∧ (clookup ctx.all_components (component_name, config_info) = none →
        (make_component catalog ctx config_info component_name).1.fresh = ctx.fresh + 1 ∧
        (make_component catalog ctx config_info component_name).2.uid = ctx.fresh)
    ∧ (∀ e, clookup ctx.all_components (component_name, config_info) = some e →
        make_component catalog ctx config_info component_name = (ctx, e)) := by
  refine ⟨?_, ?_, ?_⟩
  · intro n
    induction n generalizing ctx with
    | zero => rfl
    | succ m ih =>
      rw [make_component_repeat, ih]
      exact make_component_stable catalog ctx config_info component_name
  · intro h
    unfold make_component
    rw [h]
    exact ⟨rfl, applyConfigOverrides_uid _ _⟩
  · intro e h
    unfold make_component
    rw [h]

theorem C8_witness :
    make_component_repeat catalog0 (.cstr "m.C") "comp" 5 mkCtx0 =
      make_component catalog0 mkCtx0 (.cstr "m.C") "comp"
    ∧ (make_component catalog0 mkCtx0 (.cstr "m.C") "comp").1.fresh = mkCtx0.fresh + 1
    ∧ (make_component catalog0 mkCtx0 (.cstr "m.C") "comp").2.uid = mkCtx0.fresh := by
  have h := C8_make_component_cached catalog0 mkCtx0 (.cstr "m.C") "comp"
  exact ⟨h.1 5, (h.2.1 rfl).1, (h.2.1 rfl).2⟩

/-! ## C9 -/

/-- Claim C9 counterexample: a computation graph listing the same
component name twice is NOT rejected — `normalize_computation_graph` and
`load_computation_graph` succeed, and `COMPONENT_ORDER` simply contains
the name twice. -/
theorem C9_counterexample :
    normalize_computation_graph [.estr "A", .estr "A"] =
      .ok [("A", { inputs := [], outputs := [] }), ("A", { inputs := [], outputs := [] })]
    ∧ load_computation_graph [.estr "A", .estr "A"] =
      .ok { components := [("A", { inputs := [], outputs := [] }),
                           ("A", { inputs := [], outputs := [] })] }
    ∧ GraphCfg.order { components := [("A", { inputs := [], outputs := [] }),
                                      ("A", { inputs := [], outputs := [] })] } = ["A", "A"] := by
  refine ⟨rfl, rfl, rfl⟩

/-- Claim C9 as amended: duplicate names in
`run.computation_graph.components` are not rejected; loading any
well-formed descriptor list (bare strings or one-key dicts of dicts)
succeeds, with `COMPONENT_ORDER` keeping every occurrence in order. -/
theorem C9_amended (l : List GraphEntry) (h : l.all wellFormedEntry = true) :
    ∃ comps, normalize_computation_graph l = .ok comps ∧
      comps.map Prod.fst = rawNames l := by
  induction l with
  | nil => exact ⟨[], rfl, rfl⟩
  | cons c rest ih =>
    rw [List.all_cons, Bool.and_eq_true] at h
    obtain ⟨comps, hc, hn⟩ := ih h.2
    cases c with
    | estr s =>
      refine ⟨(s, { inputs := [], outputs := [] }) :: comps, ?_, ?_⟩
      · rw [normalize_computation_graph, hc]
        rfl
      · rw [rawNames, List.map_cons, hn]
    | edict entries =>
      match entries, h.1 with
      | [(k, .idict v)], _ =>
        refine ⟨(k, { inputs := normalizeInOut v "inputs",
                      outputs := normalizeInOut v "outputs" }) :: comps, ?_, ?_⟩
        · simp [normalize_computation_graph, hc]
          rfl
        · rw [rawNames, List.map_cons, hn]
    | eother => exact absurd h.1 (by simp [wellFormedEntry])

theorem C9_witness :
    ∃ comps, normalize_computation_graph [.estr "A", .estr "A"] = .ok comps ∧
      comps.map Prod.fst = rawNames [.estr "A", .estr "A"] :=
  C9_amended [.estr "A", .estr "A"] (by decide)

/-! ## C6: validator lemmas -/

lemma insertSet_mem (l : List String) (y x : String) :
    x ∈ insertSet l y ↔ x ∈ l ∨ x = y := by
  unfold insertSet
  split
  · constructor
    · exact fun h => Or.inl h
    · rintro (h | rfl)
      · exact h
      · assumption
  · simp [List.mem_append]

lemma foldl_insertSet_mem (l : List String) :
    ∀ acc x, x ∈ l.foldl insertSet acc ↔ x ∈ acc ∨ x ∈ l := by
  induction l with
  | nil => simp
  | cons a rest ih =>
    intro acc x
    rw [List.foldl_cons, ih, insertSet_mem]
    simp [List.mem_cons]
    tauto

lemma toSet_mem (l : List String) (x : String) : x ∈ toSet l ↔ x ∈ l := by
  unfold toSet
  rw [foldl_insertSet_mem]
  simp

lemma valCheckInputs_isOk (poss provided : List String) (pall : Bool) (ins : List String) :
    exOk (valCheckInputs poss provided pall ins) = true ↔
    ∀ i ∈ ins, (i = "all" → poss = ["all"]) ∧
      (i ≠ "all" → (pall = true ∨ i ∈ provided) ∧ (poss = ["all"] ∨ i ∈ poss)) := by
  induction ins with
  | nil => simp [valCheckInputs, exOk]
  | cons i rest ih =>
    unfold valCheckInputs
    by_cases hall : i = "all"
    · subst hall
      rw [if_pos rfl]
      by_cases hposs : poss = ["all"]
      · rw [if_pos hposs, ih, List.forall_mem_cons]
        simp [hposs]
      · rw [if_neg hposs]
        simp [exOk, List.forall_mem_cons, hposs]
    · rw [if_neg hall]
      by_cases hprov : (pall = true ∨ i ∈ provided)
      · rw [if_pos hprov]
        by_cases hpossall : poss = ["all"]
        · rw [if_pos hpossall, ih, List.forall_mem_cons]
          simp [hall, hprov, hpossall]
        · rw [if_neg hpossall]
          by_cases hip : i ∈ poss
          · rw [if_pos hip, ih, List.forall_mem_cons]
            simp [hall, hprov, hpossall, hip]
          · rw [if_neg hip]
            simp [exOk, List.forall_mem_cons, hall, hpossall, hip]
      · rw [if_neg hprov]
        simp [exOk, List.forall_mem_cons, hall, hprov]

lemma valCheckOutputs_isOk (outs req : List String) :
    exOk (valCheckOutputs outs req) = true ↔
    ∀ o ∈ req, (o = "all" → outs = ["all"]) ∧ (o ≠ "all" → o ∈ outs) := by
  induction req with
  | nil => simp [valCheckOutputs, exOk]
  | cons o rest ih =>
    unfold valCheckOutputs
    by_cases hall : o = "all"
    · subst hall
      rw [if_pos rfl]
      by_cases houts : outs = ["all"]
      · rw [if_pos houts, ih, List.forall_mem_cons]
        simp [houts]
      · rw [if_neg houts]
        simp [exOk, List.forall_mem_cons, houts]
    · rw [if_neg hall]
      by_cases ho : o ∈ outs
      · rw [if_pos ho, ih, List.forall_mem_cons]
        simp [hall, ho]
      · rw [if_neg ho]
        simp [exOk, List.forall_mem_cons, hall, ho]

lemma valAddOutputs_spec (outs : List String) : ∀ (provided : List String) (pall : Bool),
    (∀ x, x ∈ (valAddOutputs provided pall outs).1 ↔
      x ∈ provided ∨ (x ≠ "all" ∧ x ∈ outs))
    ∧ (valAddOutputs provided pall outs).2 = (pall || decide ("all" ∈ outs)) := by
  induction outs with
  | nil => simp [valAddOutputs]
  | cons o rest ih =>
    intro provided pall
    unfold valAddOutputs
    by_cases ho : o = "all"
    · subst ho
      rw [if_pos rfl]
      obtain ⟨ih1, ih2⟩ := ih provided true
      constructor
      · intro x
        rw [ih1]
        simp only [List.mem_cons]
        constructor
        · rintro (h | ⟨hne, hr⟩)
          · exact Or.inl h
          · exact Or.inr ⟨hne, Or.inr hr⟩
        · rintro (h | ⟨hne, (rfl | hr)⟩)
          · exact Or.inl h
          · exact absurd rfl hne
          · exact Or.inr ⟨hne, hr⟩
      · rw [ih2]
        simp
    · rw [if_neg ho]
      obtain ⟨ih1, ih2⟩ := ih (insertSet provided o) pall
      constructor
      · intro x
        rw [ih1, insertSet_mem]
        simp only [List.mem_cons]
        constructor
        · rintro ((h | rfl) | ⟨hne, hr⟩)
          · exact Or.inl h
          · exact Or.inr ⟨ho, Or.inl rfl⟩
          · exact Or.inr ⟨hne, Or.inr hr⟩
        · rintro (h | ⟨hne, (rfl | hr)⟩)
          · exact Or.inl (Or.inl h)
          · exact Or.inl (Or.inr rfl)
          · exact Or.inr ⟨hne, hr⟩
      · rw [ih2]
        have : ("all" ∈ o :: rest) ↔ ("all" ∈ rest) := by
          simp [List.mem_cons, Ne.symm ho]
        simp [this]

lemma valCheckKnown_isOk (g : GraphCfg) (comps : List (String × CompIface)) :
    exOk (valCheckKnown g comps) =
      comps.all (fun kc => (g.settingsLookup kc.1).isSome) := by
  induction comps with
  | nil => rfl
  | cons kc rest ih =>
    rcases kc with ⟨k, c⟩
    unfold valCheckKnown
    rcases h : g.settingsLookup k with _ | st
    · simp [exOk, h]
    · simp only [List.all_cons, h, Option.isSome_some, Bool.true_and]
      exact ih

/-- The per-input bridge between the source's check (over the accumulated
`provided` set and `provided_all` flag) and the spec's formulation (over
the prior processed components). -/
lemma inputs_bridge (stIn provided pr0 : List String) (pall : Bool)
    (prior : List (String × CompIface)) (ins : List String)
    (Hp : ∀ x, x ∈ provided ↔
      (x ∈ pr0 ∨ ∃ kc ∈ prior, x ≠ "all" ∧ x ∈ kc.2.state_outputs))
    (Ha : pall = prior.any (fun kc => decide ("all" ∈ kc.2.state_outputs))) :
    exOk (valCheckInputs stIn provided pall ins) = true ↔
    (ins.all (fun i => if i = "all" then decide (stIn = ["all"])
       else specPriorProvides pr0 prior i
         && (decide (stIn = ["all"]) || decide (i ∈ stIn)))) = true := by
  rw [valCheckInputs_isOk, List.all_eq_true]
  have key : ∀ i, ((i = "all" → stIn = ["all"]) ∧
      (i ≠ "all" → (pall = true ∨ i ∈ provided) ∧ (stIn = ["all"] ∨ i ∈ stIn))) ↔
      ((if i = "all" then decide (stIn = ["all"])
        else specPriorProvides pr0 prior i
          && (decide (stIn = ["all"]) || decide (i ∈ stIn))) = true) := by
    intro i
    by_cases hall : i = "all"
    · subst hall
      simp
    · rw [if_neg hall]
      have hprov : (pall = true ∨ i ∈ provided) ↔ specPriorProvides pr0 prior i = true := by
        rw [Hp i, Ha]
        simp only [specPriorProvides, Bool.or_eq_true, List.any_eq_true,
          decide_eq_true_eq]
        constructor
        · rintro (hc | (h0 | ⟨kc, hkc, _, hmem⟩))
          · exact Or.inr hc
          · exact Or.inl (Or.inl h0)
          · exact Or.inl (Or.inr ⟨kc, hkc, hmem⟩)
        · rintro ((h0 | ⟨kc, hkc, hmem⟩) | hc)
          · exact Or.inr (Or.inl h0)
          · exact Or.inr (Or.inr ⟨kc, hkc, hall, hmem⟩)
          · exact Or.inl hc
      rw [Bool.and_eq_true, Bool.or_eq_true]
      simp only [decide_eq_true_eq]
      constructor
      · intro hlp
        have h2 := hlp.2 hall
        exact ⟨hprov.mp h2.1, h2.2⟩
      · intro hrp
        exact ⟨fun hc => absurd hc hall, fun _ => ⟨hprov.mpr hrp.1, hrp.2⟩⟩
  constructor
  · intro h i hi
    exact (key i).mp (h i hi)
  · intro h i hi
    exact (key i).mpr (h i hi)

lemma outputs_bridge (cOuts req : List String) :
    exOk (valCheckOutputs cOuts req) = true ↔
    (req.all (fun o => if o = "all" then decide (cOuts = ["all"])
       else decide (o ∈ cOuts))) = true := by
  rw [valCheckOutputs_isOk, List.all_eq_true]
  have key : ∀ o, ((o = "all" → cOuts = ["all"]) ∧ (o ≠ "all" → o ∈ cOuts)) ↔
      ((if o = "all" then decide (cOuts = ["all"]) else decide (o ∈ cOuts)) = true) := by
    intro o
    by_cases hall : o = "all"
    · subst hall
      simp
    · rw [if_neg hall]
      simp only [decide_eq_true_eq]
      exact ⟨fun h => h.2 hall, fun h => ⟨fun hc => absurd hc hall, fun _ => h⟩⟩
  constructor
  · intro h o ho
    exact (key o).mp (h o ho)
  · intro h o ho
    exact (key o).mpr (h o ho)

/-- The central equivalence: the validator walk succeeds exactly when the
amended spec-side walk accepts, for any accumulator consistent with the
prior processed components. -/
lemma validateLoop_iff (g : GraphCfg) (components : List (String × CompIface)) :
    ∀ (order provided : List String) (pall : Bool)
      (prior : List (String × CompIface)) (pr0 : List String),
    (∀ x, x ∈ provided ↔
      (x ∈ pr0 ∨ ∃ kc ∈ prior, x ≠ "all" ∧ x ∈ kc.2.state_outputs)) →
    pall = prior.any (fun kc => decide ("all" ∈ kc.2.state_outputs)) →
    (exOk (validateLoop g components order provided pall) = true ↔
      amendedSpecWalk g pr0 prior (processedComps components order) = true) := by
  intro order
  induction order with
  | nil =>
    intro provided pall prior pr0 Hp Ha
    simp [validateLoop, processedComps, amendedSpecWalk, exOk]
  | cons k rest ih =>
    intro provided pall prior pr0 Hp Ha
    unfold validateLoop processedComps
    rcases hck : alookup components k with _ | c
    · exact ih provided pall prior pr0 Hp Ha
    · unfold amendedSpecWalk
      simp only
      rcases hst : g.settingsLookup k with _ | st
      · simp [exOk]
      · have hIns := inputs_bridge st.inputs provided pr0 pall prior c.state_inputs Hp Ha
        have hOuts := outputs_bridge c.state_outputs st.outputs
        rcases hvi : valCheckInputs st.inputs provided pall c.state_inputs with e | u
        · rw [hvi] at hIns
          have hA : (c.state_inputs.all (fun i => if i = "all" then decide (st.inputs = ["all"])
              else specPriorProvides pr0 prior i
                && (decide (st.inputs = ["all"]) || decide (i ∈ st.inputs)))) = false := by
            cases hAll : (c.state_inputs.all (fun i => if i = "all" then decide (st.inputs = ["all"])
              else specPriorProvides pr0 prior i
                && (decide (st.inputs = ["all"]) || decide (i ∈ st.inputs)))) with
            | false => rfl
            | true => exact absurd (hIns.mpr hAll) (by simp [exOk])
          simp [exOk, hvi, hA]
        · rcases hvo : valCheckOutputs c.state_outputs st.outputs with e | v
          · rw [hvo] at hOuts
            have hB : (st.outputs.all (fun o => if o = "all" then decide (c.state_outputs = ["all"])
                else decide (o ∈ c.state_outputs))) = false := by
              cases hAll : (st.outputs.all (fun o => if o = "all" then decide (c.state_outputs = ["all"])
                  else decide (o ∈ c.state_outputs))) with
              | false => rfl
              | true => exact absurd (hOuts.mpr hAll) (by simp [exOk])
            simp [exOk, hvi, hvo, hB]
          · have hpa := valAddOutputs_spec c.state_outputs provided pall
            have Hp2 : ∀ x, x ∈ (valAddOutputs provided pall c.state_outputs).1 ↔
                (x ∈ pr0 ∨ ∃ kc ∈ prior ++ [(k, c)], x ≠ "all" ∧ x ∈ kc.2.state_outputs) := by
              intro x
              rw [hpa.1 x, Hp x]
              constructor
              · rintro ((h0 | ⟨kc, hkc, hne, hmem⟩) | ⟨hne, hmem⟩)
                · exact Or.inl h0
                · exact Or.inr ⟨kc, List.mem_append_left _ hkc, hne, hmem⟩
                · exact Or.inr ⟨(k, c), List.mem_append_right _ (by simp), hne, hmem⟩
              · rintro (h0 | ⟨kc, hkc, hne, hmem⟩)
                · exact Or.inl (Or.inl h0)
                · rcases List.mem_append.mp hkc with hkcp | hkcs
                  · exact Or.inl (Or.inr ⟨kc, hkcp, hne, hmem⟩)
                  · have : kc = (k, c) := by simpa using hkcs
                    subst this
                    exact Or.inr ⟨hne, hmem⟩
            have Ha2 : (valAddOutputs provided pall c.state_outputs).2 =
                (prior ++ [(k, c)]).any (fun kc => decide ("all" ∈ kc.2.state_outputs)) := by
              rw [hpa.2, Ha, List.any_append]
              simp
            have hrec := ih (valAddOutputs provided pall c.state_outputs).1
              (valAddOutputs provided pall c.state_outputs).2 (prior ++ [(k, c)]) pr0 Hp2 Ha2
            have hA : (c.state_inputs.all (fun i => if i = "all" then decide (st.inputs = ["all"])
                else specPriorProvides pr0 prior i
                  && (decide (st.inputs = ["all"]) || decide (i ∈ st.inputs)))) = true := by
              apply hIns.mp
              rw [hvi]
              rfl
            have hB : (st.outputs.all (fun o => if o = "all" then decide (c.state_outputs = ["all"])
                else decide (o ∈ c.state_outputs))) = true := by
              apply hOuts.mp
              rw [hvo]
              rfl
            simp only [hvi, hvo]
            rw [hrec]
            simp [hA, hB]

/-- On success the walk returns the accumulated provided set: the initial
set plus every non-`"all"` output of every processed component. -/
lemma validateLoop_ok_mem (g : GraphCfg) (components : List (String × CompIface)) :
    ∀ (order provided : List String) (pall : Bool) (p : List String) (a : Bool),
    validateLoop g components order provided pall = .ok (p, a) →
    ∀ x, x ∈ p ↔ x ∈ provided ∨
      ∃ kc ∈ processedComps components order, x ≠ "all" ∧ x ∈ kc.2.state_outputs := by
  intro order
  induction order with
  | nil =>
    intro provided pall p a h x
    unfold validateLoop at h
    simp only [Except.ok.injEq, Prod.mk.injEq] at h
    rw [← h.1]
    simp [processedComps]
  | cons k rest ih =>
    intro provided pall p a h x
    unfold validateLoop at h
    unfold processedComps
    rcases hck : alookup components k with _ | c <;> rw [hck] at h <;> simp only at h ⊢
    · exact ih provided pall p a h x
    · rcases hst : g.settingsLookup k with _ | st <;> rw [hst] at h <;> simp only at h
      · exact absurd h (by simp)
      · rcases hvi : valCheckInputs st.inputs provided pall c.state_inputs with e | u <;>
          rw [hvi] at h <;> simp only at h
        · exact absurd h (by simp)
        · rcases hvo : valCheckOutputs c.state_outputs st.outputs with e | v <;>
            rw [hvo] at h <;> simp only at h
          · exact absurd h (by simp)
          · have hpa := valAddOutputs_spec c.state_outputs provided pall
            have := ih (valAddOutputs provided pall c.state_outputs).1
              (valAddOutputs provided pall c.state_outputs).2 p a h x
            rw [this, hpa.1 x]
            simp only [List.mem_cons]
            constructor
            · rintro ((h0 | ⟨hne, hmem⟩) | ⟨kc, hkc, hne, hmem⟩)
              · exact Or.inl h0
              · exact Or.inr ⟨(k, c), Or.inl rfl, hne, hmem⟩
              · exact Or.inr ⟨kc, Or.inr hkc, hne, hmem⟩
            · rintro (h0 | ⟨kc, (rfl | hkc), hne, hmem⟩)
              · exact Or.inl (Or.inl h0)
              · exact Or.inl (Or.inr ⟨hne, hmem⟩)
              · exact Or.inr ⟨kc, hkc, hne, hmem⟩

/-! ## C6 -/

/-- Claim C6 counterexample: with descriptor `B : inputs []` and a runtime
`B` whose `state_inputs()` is `["x"]` with `x` already provided, every
condition the claim lists holds, yet `validate_components` fails — the
source additionally requires each input to appear among the descriptor's
declared inputs ("component is not supposed to receive this input"). -/
theorem C6_counterexample :
    claimSpec gC6 compsC6 ["x"] = true
    ∧ exOk (validate_components gC6 compsC6 (some ["x"])) = false := by
  constructor <;> decide

/-- Claim C6 as amended: `validate_components` succeeds iff, walking the
graph order restricted to the runtime components, every declared input
either equals `"all"` (requiring descriptor inputs exactly `["all"]`) or
is already provided / produced upstream / covered by an upstream `"all"`
AND (the amendment) is itself among the descriptor's declared inputs
unless those are `["all"]`; every required descriptor output appears in
`state_outputs()`, where a required `"all"` demands exactly `["all"]`
(second amendment); and every runtime name is known.  On success the
returned list is the cumulative provided set. -/
theorem C6_validate_iff (g : GraphCfg) (comps : List (String × CompIface))
    (pr0 : List String) :
    (exOk (validate_components g comps (some pr0)) = true ↔
      amendedSpec g comps pr0 = true)
    ∧ (∀ p, validate_components g comps (some pr0) = .ok p →
        ∀ x, x ∈ p ↔ (x ∈ pr0 ∨
          ∃ kc ∈ processedComps comps g.order, x ≠ "all" ∧ x ∈ kc.2.state_outputs)) := by
  have Hp : ∀ x, x ∈ toSet pr0 ↔
      (x ∈ pr0 ∨ ∃ kc ∈ ([] : List (String × CompIface)), x ≠ "all" ∧
        x ∈ kc.2.state_outputs) := by
    intro x
    rw [toSet_mem]
    simp
  have hloop := validateLoop_iff g comps g.order (toSet pr0) false [] pr0 Hp rfl
  constructor
  · unfold validate_components amendedSpec
    simp only
    rcases hv : validateLoop g comps g.order (toSet pr0) false with e | pa <;>
      rw [hv] at hloop
    · have hW : amendedSpecWalk g pr0 [] (processedComps comps g.order) = false := by
        cases hAll : amendedSpecWalk g pr0 [] (processedComps comps g.order) with
        | false => rfl
        | true => exact absurd (hloop.mpr hAll) (by simp [exOk])
      simp [exOk, hW]
    · have hW : amendedSpecWalk g pr0 [] (processedComps comps g.order) = true :=
        hloop.mp rfl
      rcases hk : valCheckKnown g comps with e | u
      · have hKn := valCheckKnown_isOk g comps
        rw [hk] at hKn
        simp only [exOk] at hKn
        simp [exOk, hW, ← hKn]
      · have hKn := valCheckKnown_isOk g comps
        rw [hk] at hKn
        simp only [exOk] at hKn
        simp [exOk, hW, ← hKn]
  · intro p hp x
    unfold validate_components at hp
    simp only at hp
    rcases hv : validateLoop g comps g.order (toSet pr0) false with e | pa <;>
      rw [hv] at hp
    · exact absurd hp (by simp)
    · rcases hk : valCheckKnown g comps with e | u <;> rw [hk] at hp
      · exact absurd hp (by simp)
      · simp only [Except.ok.injEq] at hp
        subst hp
        have := validateLoop_ok_mem g comps g.order (toSet pr0) false pa.1 pa.2
          (by rw [hv]) x
        rw [this, toSet_mem]

theorem C6_witness :
    exOk (validate_components gC6W compsC6W (some ["x"])) = true
    ∧ (∀ p, validate_components gC6W compsC6W (some ["x"]) = .ok p →
        ("y" ∈ p ↔ ("y" ∈ ["x"] ∨
          ∃ kc ∈ processedComps compsC6W gC6W.order, "y" ≠ "all" ∧
            "y" ∈ kc.2.state_outputs))) := by
  have h := C6_validate_iff gC6W compsC6W ["x"]
  exact ⟨h.1.mpr (by decide), fun p hp => h.2 p hp "y"⟩

/-! ## Frame lemmas for the mission loop

Each loop body only appends to the trace (never lifecycle events) and
preserves `current_pipeline` and `mission.type`; these facts drive the
C2/C4/C5 proofs. -/

lemma noLifecycle_nil : noLifecycle [] := by
  intro e he
  cases he

lemma noLifecycle_append {a b : List Ev} (ha : noLifecycle a) (hb : noLifecycle b) :
    noLifecycle (a ++ b) := by
  intro e he
  rcases List.mem_append.mp he with h | h
  · exact ha e h
  · exact hb e h

lemma setattrField_mission (st : AllState) (k : String) (v : PyObj) :
    (setattrField st k v).mission_type = st.mission_type := rfl

lemma writeOutputs_mission : ∀ (outs : List String) (vals : List PyObj) (t : Time)
    (st : AllState), (writeOutputs st outs vals t).mission_type = st.mission_type := by
  intro outs
  induction outs with
  | nil => intro vals t st; cases vals <;> rfl
  | cons k ko ih =>
    intro vals t st
    cases vals with
    | nil => rfl
    | cons v vo => exact ih vo t _

lemma update_now_mission (b : CompBehavior) (t : Time) (ex ex1 : ComponentExecutor)
    (st st1 : AllState) (h : update_now b t ex st = (ex1, .ok st1)) :
    st1.mission_type = st.mission_type := by
  unfold update_now at h
  rcases hc : argsCheck ex.inputs st with e | u <;> rw [hc] at h
  · simp at h
  · rcases hdo : do_update b ex with ⟨exA, r⟩
    rw [hdo] at h
    rcases r with _ | v
    · simp only [Prod.mk.injEq, Except.ok.injEq] at h
      rw [← h.2]
    · simp only at h
      split at h
      · rcases hl : pyLen v with _ | n <;> rw [hl] at h
        · simp at h
        · simp only at h
          split at h
          · simp only [Prod.mk.injEq, Except.ok.injEq] at h
            rw [← h.2]
            exact writeOutputs_mission _ _ _ _
          · simp at h
      · rcases ho : exA.output with _ | ⟨o, rest⟩ <;> rw [ho] at h
        · simp at h
        · simp only [Prod.mk.injEq, Except.ok.injEq] at h
          rw [← h.2]
          rfl

lemma update_mission (b : CompBehavior) (t : Time) (ex ex1 : ComponentExecutor)
    (st st1 : AllState) (u : Bool) (h : update b t ex st = (ex1, .ok (st1, u))) :
    st1.mission_type = st.mission_type := by
  unfold update at h
  split at h
  · rcases hu : update_now b t ex st with ⟨exA, r⟩
    rw [hu] at h
    rcases r with e | stA
    · simp at h
    · have hm := update_now_mission b t ex exA st stA hu
      simp only at h
      split at h
      · simp only [Prod.mk.injEq, Except.ok.injEq] at h
        rw [← h.2.1]
        exact hm
      · simp only [Prod.mk.injEq, Except.ok.injEq] at h
        rw [← h.2.1]
        exact hm
  · simp only [Prod.mk.injEq, Except.ok.injEq] at h
    rw [← h.2.1]

lemma updateComponentsGo_frame (env : ExecEnv) (now : Bool) :
    ∀ (order : List String) (s : ExecSt),
    ∃ Δ, (updateComponentsGo env now order s).1.trace = s.trace ++ Δ ∧ noLifecycle Δ
      ∧ (updateComponentsGo env now order s).1.state.mission_type = s.state.mission_type
      ∧ (updateComponentsGo env now order s).1.current_pipeline = s.current_pipeline
      ∧ (updateComponentsGo env now order s).1.clk = s.clk
      ∧ (updateComponentsGo env now order s).1.last_hardware_faults =
          s.last_hardware_faults := by
  intro order
  induction order with
  | nil =>
    intro s
    exact ⟨[], by simp [updateComponentsGo], noLifecycle_nil, rfl, rfl, rfl, rfl⟩
  | cons k rest ih =>
    intro s
    rcases hk : alookup s.store k with _ | ex
    · have hstep : updateComponentsGo env now (k :: rest) s =
          updateComponentsGo env now rest s := by
        simp only [updateComponentsGo, hk]
      rw [hstep]
      exact ih s
    · by_cases hnow : now = true
      · subst hnow
        rcases hu : update_now (env.behaviors k) s.state.t ex s.state with ⟨ex1, r⟩
        rcases r with e | st1
        · have hstep : updateComponentsGo env true (k :: rest) s =
              ({ s with store := aset s.store k ex1 }, some e) := by
            simp only [updateComponentsGo, hk, hu, Bool.false_eq_true, if_true, if_false]
          rw [hstep]
          exact ⟨[], by simp, noLifecycle_nil, rfl, rfl, rfl, rfl⟩
        · have hstep : updateComponentsGo env true (k :: rest) s =
              updateComponentsGo env true rest
                (pushEv { s with store := aset s.store k ex1, state := st1 }
                  (.compUpdate k)) := by
            simp only [updateComponentsGo, hk, hu, Bool.false_eq_true, if_true, if_false]
          rw [hstep]
          have hm := update_now_mission _ _ _ _ _ _ hu
          obtain ⟨Δ, h1, h2, h3, h4, h5, h6⟩ := ih
            (pushEv { s with store := aset s.store k ex1, state := st1 } (.compUpdate k))
          refine ⟨Ev.compUpdate k :: Δ, ?_, ?_, ?_, ?_, ?_, ?_⟩
          · rw [h1]
            simp [pushEv]
          · intro e he
            rcases List.mem_cons.mp he with rfl | he2
            · rfl
            · exact h2 e he2
          · rw [h3]
            exact hm
          · exact h4.trans rfl
          · exact h5.trans rfl
          · exact h6.trans rfl
      · rw [Bool.not_eq_true] at hnow
        subst hnow
        rcases hu : update (env.behaviors k) s.state.t ex s.state with ⟨ex1, r⟩
        rcases r with e | ⟨st1, upd⟩
        · have hstep : updateComponentsGo env false (k :: rest) s =
              ({ s with store := aset s.store k ex1 }, some e) := by
            simp only [updateComponentsGo, hk, hu, Bool.false_eq_true, if_true, if_false]
          rw [hstep]
          exact ⟨[], by simp, noLifecycle_nil, rfl, rfl, rfl, rfl⟩
        · have hm := update_mission _ _ _ _ _ _ _ hu
          cases upd with
          | true =>
            have hstep : updateComponentsGo env false (k :: rest) s =
                updateComponentsGo env false rest
                  (pushEv { s with store := aset s.store k ex1, state := st1 }
                    (.compUpdate k)) := by
              simp only [updateComponentsGo, hk, hu, Bool.false_eq_true, if_true, if_false]
            rw [hstep]
            obtain ⟨Δ, h1, h2, h3, h4, h5, h6⟩ := ih
              (pushEv { s with store := aset s.store k ex1, state := st1 } (.compUpdate k))
            refine ⟨Ev.compUpdate k :: Δ, ?_, ?_, ?_, ?_, ?_, ?_⟩
            · rw [h1]
              simp [pushEv]
            · intro e he
              rcases List.mem_cons.mp he with rfl | he2
              · rfl
              · exact h2 e he2
            · rw [h3]
              exact hm
            · exact h4.trans rfl
            · exact h5.trans rfl
            · exact h6.trans rfl
          | false =>
            have hstep : updateComponentsGo env false (k :: rest) s =
                updateComponentsGo env false rest
                  { s with store := aset s.store k ex1, state := st1 } := by
              simp only [updateComponentsGo, hk, hu, Bool.false_eq_true, if_true, if_false]
            rw [hstep]
            obtain ⟨Δ, h1, h2, h3, h4, h5, h6⟩ := ih
              { s with store := aset s.store k ex1, state := st1 }
            refine ⟨Δ, ?_, h2, ?_, ?_, ?_, ?_⟩
            · rw [h1]
            · rw [h3]
              exact hm
            · exact h4.trans rfl
            · exact h5.trans rfl
            · exact h6.trans rfl

lemma chfLoop_frame (req : Bool) (last : List String) :
    ∀ (fs : List String) (s : ExecSt),
    ∃ Δ, chfLoop req last fs s = { s with trace := s.trace ++ Δ } ∧ noLifecycle Δ := by
  intro fs
  induction fs with
  | nil => intro s; exact ⟨[], by simp [chfLoop], noLifecycle_nil⟩
  | cons f rest ih =>
    intro s
    unfold chfLoop
    have push : ∀ (ev : String), ∃ Δ,
        chfLoop req last rest (pushEv s (.event ev)) = { s with trace := s.trace ++ Δ }
        ∧ noLifecycle Δ := by
      intro ev
      obtain ⟨Δ, h1, h2⟩ := ih (pushEv s (.event ev))
      refine ⟨Ev.event ev :: Δ, ?_, ?_⟩
      · rw [h1]
        simp [pushEv]
      · intro e he
        rcases List.mem_cons.mp he with rfl | he2
        · rfl
        · exact h2 e he2
    split
    · split
      · split
        · exact ih s
        · exact push _
      · exact ih s
    · split
      · exact ih s
      · exact push _

lemma chf_frame (env : ExecEnv) (s : ExecSt) :
    ∃ Δ, check_for_hardware_faults env s =
      { s with trace := s.trace ++ Δ, last_hardware_faults := env.faults s.clk }
    ∧ noLifecycle Δ := by
  unfold check_for_hardware_faults
  obtain ⟨Δ, h1, h2⟩ := chfLoop_frame env.requireEngaged s.last_hardware_faults
    (env.faults s.clk) s
  exact ⟨Δ, by simp [h1], h2⟩

lemma updateComponents_frame (env : ExecEnv) (cfg : ExecConfig) (names : List String)
    (now force : Bool) (s : ExecSt) :
    ∃ Δ, (updateComponents env cfg names now force s).1.trace = s.trace ++ Δ
      ∧ noLifecycle Δ
      ∧ (updateComponents env cfg names now force s).1.state.mission_type =
          s.state.mission_type
      ∧ (updateComponents env cfg names now force s).1.current_pipeline =
          s.current_pipeline
      ∧ (updateComponents env cfg names now force s).1.clk = s.clk
      ∧ (updateComponents env cfg names now force s).1.last_hardware_faults =
          s.last_hardware_faults := by
  unfold updateComponents
  exact updateComponentsGo_frame env now _ s

lemma vsLoop_frame (env : ExecEnv) (cfg : ExecConfig) (pl : Pipeline3)
    (ns : Option ℕ) :
    ∀ (fuel att : ℕ) (s : ExecSt),
    ∃ Δ, (vsLoop env cfg pl ns fuel att s).1.trace = s.trace ++ Δ
      ∧ noLifecycle Δ
      ∧ (vsLoop env cfg pl ns fuel att s).1.state.mission_type = s.state.mission_type
      ∧ (vsLoop env cfg pl ns fuel att s).1.current_pipeline = s.current_pipeline := by
  intro fuel
  induction fuel with
  | zero =>
    intro att s
    exact ⟨[], by simp [vsLoop], noLifecycle_nil, rfl, rfl⟩
  | succ n ih =>
    intro att s
    by_cases hI : env.interrupt s.clk = true
    · have hstep : vsLoop env cfg pl ns (n + 1) att s =
          ({ s with state := { s.state with t := env.vtime s.clk } },
            .error .keyboardInterrupt) := by
        simp only [vsLoop, hI, if_true]
      rw [hstep]
      exact ⟨[], by simp, noLifecycle_nil, rfl, rfl⟩
    · rw [Bool.not_eq_true] at hI
      obtain ⟨Δ1, hc1, hc2⟩ :=
        chf_frame env { s with state := { s.state with t := env.vtime s.clk } }
      rcases hU1 : updateComponents env cfg pl.perception false false
          (check_for_hardware_faults env
            { s with state := { s.state with t := env.vtime s.clk } }) with ⟨sC, r1⟩
      have hCframe := updateComponents_frame env cfg pl.perception false false
        (check_for_hardware_faults env
          { s with state := { s.state with t := env.vtime s.clk } })
      rw [hU1] at hCframe
      obtain ⟨Δ2, h1, h2, h3, h4, h5, h6⟩ := hCframe
      rw [hc1] at h1 h3 h4
      rcases r1 with _ | e
      · rcases hU2 : updateComponents env cfg cfg.always_run false true sC with ⟨sD, r2⟩
        have hDframe := updateComponents_frame env cfg cfg.always_run false true sC
        rw [hU2] at hDframe
        obtain ⟨Δ3, g1, g2, g3, g4, g5, g6⟩ := hDframe
        rcases r2 with _ | e
        · by_cases hN : numstepsHit ns (att + 1) = true
          · have hstep : vsLoop env cfg pl ns (n + 1) att s = (sD, .ok false) := by
              simp only [vsLoop, hI, Bool.false_eq_true, if_false, hU1, hU2]
              rw [if_pos hN]
            rw [hstep]
            refine ⟨Δ1 ++ Δ2 ++ Δ3, ?_, noLifecycle_append (noLifecycle_append hc2 h2) g2,
              g3.trans h3, g4.trans h4⟩
            rw [g1, h1]
            simp
          · by_cases hW : allHealthy env sC.store pl.perception = true
            · have hstep : vsLoop env cfg pl ns (n + 1) att s =
                  ({ sD with clk := sD.clk + 1 }, .ok true) := by
                simp only [vsLoop, hI, Bool.false_eq_true, if_false, hU1, hU2]
                rw [if_neg hN, if_pos hW]
              rw [hstep]
              refine ⟨Δ1 ++ Δ2 ++ Δ3, ?_, noLifecycle_append (noLifecycle_append hc2 h2) g2,
                g3.trans h3, g4.trans h4⟩
              rw [show ({ sD with clk := sD.clk + 1 } : ExecSt).trace = sD.trace from rfl,
                g1, h1]
              simp
            · have hstep : vsLoop env cfg pl ns (n + 1) att s =
                  vsLoop env cfg pl ns n (att + 1) { sD with clk := sD.clk + 1 } := by
                simp only [vsLoop, hI, Bool.false_eq_true, if_false, hU1, hU2]
                rw [if_neg hN, if_neg hW]
              rw [hstep]
              obtain ⟨Δ4, k1, k2, k3, k4⟩ := ih (att + 1) { sD with clk := sD.clk + 1 }
              refine ⟨Δ1 ++ Δ2 ++ Δ3 ++ Δ4, ?_,
                noLifecycle_append (noLifecycle_append (noLifecycle_append hc2 h2) g2) k2,
                k3.trans (g3.trans h3), k4.trans (g4.trans h4)⟩
              rw [k1, show ({ sD with clk := sD.clk + 1 } : ExecSt).trace = sD.trace from rfl,
                g1, h1]
              simp
        · have hstep : vsLoop env cfg pl ns (n + 1) att s = (sD, .error e) := by
            simp only [vsLoop, hI, Bool.false_eq_true, if_false, hU1, hU2]
          rw [hstep]
          refine ⟨Δ1 ++ Δ2 ++ Δ3, ?_, noLifecycle_append (noLifecycle_append hc2 h2) g2,
            g3.trans h3, g4.trans h4⟩
          rw [g1, h1]
          simp
      · have hstep : vsLoop env cfg pl ns (n + 1) att s = (sC, .error e) := by
          simp only [vsLoop, hI, Bool.false_eq_true, if_false, hU1]
        rw [hstep]
        refine ⟨Δ1 ++ Δ2, ?_, noLifecycle_append hc2 h2, h3, h4⟩
        rw [h1]
        simp

lemma rusLoop_frame (env : ExecEnv) (cfg : ExecConfig) (pl : Pipeline3) :
    ∀ (fuel : ℕ) (s : ExecSt),
    ∃ Δ, (rusLoop env cfg pl fuel s).1.trace = s.trace ++ Δ
      ∧ noLifecycle Δ
      ∧ (rusLoop env cfg pl fuel s).1.state.mission_type = s.state.mission_type
      ∧ (rusLoop env cfg pl fuel s).1.current_pipeline = s.current_pipeline := by
  intro fuel
  induction fuel with
  | zero =>
    intro s
    exact ⟨[], by simp [rusLoop], noLifecycle_nil, rfl, rfl⟩
  | succ n ih =>
    intro s
    by_cases hD : env.subDone s.clk = true
    · have hstep : rusLoop env cfg pl (n + 1) s = (s, .ok none) := by
        simp only [rusLoop, hD, if_true]
      rw [hstep]
      exact ⟨[], by simp, noLifecycle_nil, rfl, rfl⟩
    · rw [Bool.not_eq_true] at hD
      by_cases hI : env.interrupt s.clk = true
      · have hstep : rusLoop env cfg pl (n + 1) s =
            ({ s with state := { s.state with t := env.vtime s.clk } },
              .error .keyboardInterrupt) := by
          simp only [rusLoop, hD, Bool.false_eq_true, if_false, hI, if_true]
        rw [hstep]
        exact ⟨[], by simp, noLifecycle_nil, rfl, rfl⟩
      · rw [Bool.not_eq_true] at hI
        obtain ⟨Δ1, hc1, hc2⟩ :=
          chf_frame env { s with state := { s.state with t := env.vtime s.clk } }
        rcases hU1 : updateComponents env cfg pl.perception false false
            (check_for_hardware_faults env
              { s with state := { s.state with t := env.vtime s.clk } }) with ⟨sC, r1⟩
        have hCf := updateComponents_frame env cfg pl.perception false false
          (check_for_hardware_faults env
            { s with state := { s.state with t := env.vtime s.clk } })
        rw [hU1] at hCf
        obtain ⟨Δ2, h1, h2, h3, h4, h5, h6⟩ := hCf
        rw [hc1] at h1 h3 h4
        have hbase : ∀ P : ExecSt → Prop, P sC → True := fun _ _ => trivial
        rcases r1 with _ | e
        case _ =>
          by_cases hF1 : phaseFault env sC pl.perception = true
          · have hstep : rusLoop env cfg pl (n + 1) s = (sC, .ok (some "recovery")) := by
              simp only [rusLoop, hD, hI, Bool.false_eq_true, if_false, hU1]
              rw [if_pos hF1]
            rw [hstep]
            exact ⟨Δ1 ++ Δ2, by rw [h1]; simp, noLifecycle_append hc2 h2, h3, h4⟩
          · by_cases hSw : switchRequested (env.subUpdate sC.clk) sC.current_pipeline = true
            · have hstep : rusLoop env cfg pl (n + 1) s =
                  (sC, .ok (env.subUpdate sC.clk)) := by
                simp only [rusLoop, hD, hI, Bool.false_eq_true, if_false, hU1]
                rw [if_neg hF1, if_pos hSw]
              rw [hstep]
              exact ⟨Δ1 ++ Δ2, by rw [h1]; simp, noLifecycle_append hc2 h2, h3, h4⟩
            · rcases hU2 : updateComponents env cfg pl.planning false false sC with ⟨sD, r2⟩
              have hDf := updateComponents_frame env cfg pl.planning false false sC
              rw [hU2] at hDf
              obtain ⟨Δ3, g1, g2, g3, g4, g5, g6⟩ := hDf
              rcases r2 with _ | e
              case _ =>
                by_cases hF2 : phaseFault env sD pl.planning = true
                · have hstep : rusLoop env cfg pl (n + 1) s =
                      (sD, .ok (some "recovery")) := by
                    simp only [rusLoop, hD, hI, Bool.false_eq_true, if_false, hU1, hU2]
                    rw [if_neg hF1, if_neg hSw, if_pos hF2]
                  rw [hstep]
                  refine ⟨Δ1 ++ Δ2 ++ Δ3, ?_,
                    noLifecycle_append (noLifecycle_append hc2 h2) g2,
                    g3.trans h3, g4.trans h4⟩
                  rw [g1, h1]
                  simp
                · rcases hU3 : updateComponents env cfg pl.other false false sD with ⟨sE, r3⟩
                  have hEf := updateComponents_frame env cfg pl.other false false sD
                  rw [hU3] at hEf
                  obtain ⟨Δ4, k1, k2, k3, k4, k5, k6⟩ := hEf
                  rcases r3 with _ | e
                  case _ =>
                    by_cases hF3 : phaseFault env sE pl.other = true
                    · have hstep : rusLoop env cfg pl (n + 1) s =
                          (sE, .ok (some "recovery")) := by
                        simp only [rusLoop, hD, hI, Bool.false_eq_true, if_false, hU1,
                          hU2, hU3]
                        rw [if_neg hF1, if_neg hSw, if_neg hF2, if_pos hF3]
                      rw [hstep]
                      refine ⟨Δ1 ++ Δ2 ++ Δ3 ++ Δ4, ?_,
                        noLifecycle_append (noLifecycle_append (noLifecycle_append hc2 h2) g2) k2,
                        k3.trans (g3.trans h3), k4.trans (g4.trans h4)⟩
                      rw [k1, g1, h1]
                      simp
                    · rcases hU4 : updateComponents env cfg cfg.always_run false true sE
                        with ⟨sF, r4⟩
                      have hFf := updateComponents_frame env cfg cfg.always_run false true sE
                      rw [hU4] at hFf
                      obtain ⟨Δ5, m1, m2, m3, m4, m5, m6⟩ := hFf
                      rcases r4 with _ | e
                      case _ =>
                        by_cases hF4 : phaseFault env sF cfg.always_run = true
                        · have hstep : rusLoop env cfg pl (n + 1) s =
                              (sF, .ok (some "recovery")) := by
                            simp only [rusLoop, hD, hI, Bool.false_eq_true, if_false,
                              hU1, hU2, hU3, hU4]
                            rw [if_neg hF1, if_neg hSw, if_neg hF2, if_neg hF3, if_pos hF4]
                          rw [hstep]
                          refine ⟨Δ1 ++ Δ2 ++ Δ3 ++ Δ4 ++ Δ5, ?_,
                            noLifecycle_append (noLifecycle_append (noLifecycle_append
                              (noLifecycle_append hc2 h2) g2) k2) m2,
                            m3.trans (k3.trans (g3.trans h3)),
                            m4.trans (k4.trans (g4.trans h4))⟩
                          rw [m1, k1, g1, h1]
                          simp
                        · have hstep : rusLoop env cfg pl (n + 1) s =
                              rusLoop env cfg pl n { sF with clk := sF.clk + 1 } := by
                            simp only [rusLoop, hD, hI, Bool.false_eq_true, if_false,
                              hU1, hU2, hU3, hU4]
                            rw [if_neg hF1, if_neg hSw, if_neg hF2, if_neg hF3, if_neg hF4]
                          rw [hstep]
                          obtain ⟨Δ6, p1, p2, p3, p4⟩ := ih { sF with clk := sF.clk + 1 }
                          refine ⟨Δ1 ++ Δ2 ++ Δ3 ++ Δ4 ++ Δ5 ++ Δ6, ?_,
                            noLifecycle_append (noLifecycle_append (noLifecycle_append
                              (noLifecycle_append (noLifecycle_append hc2 h2) g2) k2) m2) p2,
                            p3.trans (m3.trans (k3.trans (g3.trans h3))),
                            p4.trans (m4.trans (k4.trans (g4.trans h4)))⟩
                          rw [p1,
                            show ({ sF with clk := sF.clk + 1 } : ExecSt).trace = sF.trace
                              from rfl, m1, k1, g1, h1]
                          simp
                      case _ =>
                        have hstep : rusLoop env cfg pl (n + 1) s = (sF, .error e) := by
                          simp only [rusLoop, hD, hI, Bool.false_eq_true, if_false,
                            hU1, hU2, hU3, hU4]
                          rw [if_neg hF1, if_neg hSw, if_neg hF2, if_neg hF3]
                        rw [hstep]
                        refine ⟨Δ1 ++ Δ2 ++ Δ3 ++ Δ4 ++ Δ5, ?_,
                          noLifecycle_append (noLifecycle_append (noLifecycle_append
                            (noLifecycle_append hc2 h2) g2) k2) m2,
                          m3.trans (k3.trans (g3.trans h3)),
                          m4.trans (k4.trans (g4.trans h4))⟩
                        rw [m1, k1, g1, h1]
                        simp
                  case _ =>
                    have hstep : rusLoop env cfg pl (n + 1) s = (sE, .error e) := by
                      simp only [rusLoop, hD, hI, Bool.false_eq_true, if_false, hU1,
                        hU2, hU3]
                      rw [if_neg hF1, if_neg hSw, if_neg hF2]
                    rw [hstep]
                    refine ⟨Δ1 ++ Δ2 ++ Δ3 ++ Δ4, ?_,
                      noLifecycle_append (noLifecycle_append (noLifecycle_append hc2 h2) g2) k2,
                      k3.trans (g3.trans h3), k4.trans (g4.trans h4)⟩
                    rw [k1, g1, h1]
                    simp
              case _ =>
                have hstep : rusLoop env cfg pl (n + 1) s = (sD, .error e) := by
                  simp only [rusLoop, hD, hI, Bool.false_eq_true, if_false, hU1, hU2]
                  rw [if_neg hF1, if_neg hSw]
                rw [hstep]
                refine ⟨Δ1 ++ Δ2 ++ Δ3, ?_,
                  noLifecycle_append (noLifecycle_append hc2 h2) g2,
                  g3.trans h3, g4.trans h4⟩
                rw [g1, h1]
                simp
        case _ =>
          have hstep : rusLoop env cfg pl (n + 1) s = (sC, .error e) := by
            simp only [rusLoop, hD, hI, Bool.false_eq_true, if_false, hU1]
          rw [hstep]
          exact ⟨Δ1 ++ Δ2, by rw [h1]; simp, noLifecycle_append hc2 h2, h3, h4⟩

lemma validate_sensors_frame (env : ExecEnv) (cfg : ExecConfig) (ns : Option ℕ)
    (fuel : ℕ) (s : ExecSt) :
    ∃ Δ, (validate_sensors env cfg ns fuel s).1.trace = s.trace ++ Δ
      ∧ noLifecycle Δ
      ∧ (validate_sensors env cfg ns fuel s).1.state.mission_type = s.state.mission_type
      ∧ (validate_sensors env cfg ns fuel s).1.current_pipeline = s.current_pipeline := by
  rcases hpl : lookupPipeline cfg s.current_pipeline with _ | pl
  · have hstep : validate_sensors env cfg ns fuel s = (s, .error .keyError) := by
      simp only [validate_sensors, hpl]
    rw [hstep]
    exact ⟨[], by simp, noLifecycle_nil, rfl, rfl⟩
  · by_cases hpe : pl.perception = []
    · have hstep : validate_sensors env cfg ns fuel s = (s, .ok true) := by
        simp only [validate_sensors, hpl]
        rw [if_pos hpe]
      rw [hstep]
      exact ⟨[], by simp, noLifecycle_nil, rfl, rfl⟩
    · rcases hmin : listMin (dtCandidates s.store (pl.perception ++ cfg.always_run))
        with e | q
      · have hstep : validate_sensors env cfg ns fuel s = (s, .error e) := by
          simp only [validate_sensors, hpl, hmin]
          rw [if_neg hpe]
        rw [hstep]
        exact ⟨[], by simp, noLifecycle_nil, rfl, rfl⟩
      · have hstep : validate_sensors env cfg ns fuel s = vsLoop env cfg pl ns fuel 0 s := by
          simp only [validate_sensors, hpl, hmin]
          rw [if_neg hpe]
        rw [hstep]
        exact vsLoop_frame env cfg pl ns fuel 0 s

/-- `run_until_switch` restated through `rusEntry`. -/
lemma run_until_switch_eq (env : ExecEnv) (cfg : ExecConfig) (fuel : ℕ) (s : ExecSt) :
    run_until_switch env cfg fuel s =
      (match lookupPipeline cfg (rusEntry s).current_pipeline with
       | none => ((rusEntry s), .error .keyError)
       | some pl =>
         match listMin (dtCandidates (rusEntry s).store
             (pl.perception ++ pl.planning ++ pl.other ++ cfg.always_run)) with
         | .error e => ((rusEntry s), .error e)
         | .ok _ => rusLoop env cfg pl fuel (rusEntry s)) := by
  unfold run_until_switch rusEntry
  split <;> rfl

lemma run_until_switch_frame (env : ExecEnv) (cfg : ExecConfig) (fuel : ℕ) (s : ExecSt) :
    ∃ Δ, (run_until_switch env cfg fuel s).1.trace = (rusEntry s).trace ++ Δ
      ∧ noLifecycle Δ
      ∧ (run_until_switch env cfg fuel s).1.state.mission_type =
          (rusEntry s).state.mission_type
      ∧ (run_until_switch env cfg fuel s).1.current_pipeline = s.current_pipeline := by
  have hcur : (rusEntry s).current_pipeline = s.current_pipeline := by
    unfold rusEntry
    split <;> rfl
  rw [run_until_switch_eq env cfg fuel s, hcur]
  rcases hpl : lookupPipeline cfg s.current_pipeline with _ | pl
  · exact ⟨[], by simp, noLifecycle_nil, rfl, hcur⟩
  · dsimp only
    rcases hmin : listMin (dtCandidates (rusEntry s).store
        (pl.perception ++ pl.planning ++ pl.other ++ cfg.always_run)) with e | q
    · exact ⟨[], by simp, noLifecycle_nil, rfl, hcur⟩
    · obtain ⟨Δ, h1, h2, h3, h4⟩ := rusLoop_frame env cfg pl fuel (rusEntry s)
      exact ⟨Δ, h1, h2, h3, h4.trans hcur⟩

lemma interruptOutcome_frame (s : ExecSt) :
    ∃ Δ, (stepState (interruptOutcome s)).trace = s.trace ++ Δ ∧ noLifecycle Δ := by
  unfold interruptOutcome
  split
  · exact ⟨[Ev.exitReason "Ctrl+C interrupt during recovery"], by simp [stepState, pushEv],
      by intro e he; rcases List.mem_singleton.mp he with rfl; rfl⟩
  · exact ⟨[Ev.event "Ctrl+C pressed, switching to recovery mode"],
      by simp [stepState, pushEv],
      by intro e he; rcases List.mem_singleton.mp he with rfl; rfl⟩

lemma handleSwitch_frame (env : ExecEnv) (cfg : ExecConfig) (fi : ℕ) (s2 : ExecSt)
    (p : String) :
    ∃ Δ, (stepState (handleSwitch env cfg fi s2 p)).trace = s2.trace ++ Δ
      ∧ noLifecycle Δ := by
  unfold handleSwitch
  have hwarn : ∀ (s3 : ExecSt) (Δ0 : List Ev), s3.trace = s2.trace ++ Δ0 → noLifecycle Δ0 →
      ∀ nx, ∃ Δ, (stepState (
        if s3.current_pipeline = "recovery" ∧ nx = "recovery" then
          .inl (pushEv s3 (.exitReason "recovery pipeline not working"), .ok ())
        else
          match validate_sensors env cfg (some 1) fi { s3 with current_pipeline := nx } with
          | (s5, .ok true) => .inr s5
          | (s5, .ok false) =>
              .inr (pushEv { s5 with current_pipeline := "recovery" }
                (.event "Sensors in desired pipeline are not working, switching to recovery"))
          | (s5, .error .keyboardInterrupt) => interruptOutcome s5
          | (s5, .error e) => .inl (s5, .error e))).trace = s2.trace ++ Δ
        ∧ noLifecycle Δ := by
    intro s3 Δ0 h0 hnl nx
    split
    · refine ⟨Δ0 ++ [Ev.exitReason "recovery pipeline not working"], ?_, ?_⟩
      · simp [stepState, pushEv, h0]
      · refine noLifecycle_append hnl ?_
        intro e he
        rcases List.mem_singleton.mp he with rfl
        rfl
    · obtain ⟨Δ1, v1, v2, v3, v4⟩ :=
        validate_sensors_frame env cfg (some 1) fi { s3 with current_pipeline := nx }
      rcases hvs : validate_sensors env cfg (some 1) fi { s3 with current_pipeline := nx }
        with ⟨s5, r⟩
      rw [hvs] at v1
      have hs5 : s5.trace = s2.trace ++ (Δ0 ++ Δ1) := by
        rw [show s5.trace = (s5, r).1.trace from rfl, v1]
        simp only
        rw [show ({ s3 with current_pipeline := nx } : ExecSt).trace = s3.trace from rfl, h0]
        simp
      rcases r with e | b
      · cases e
        case keyboardInterrupt =>
          obtain ⟨Δ2, i1, i2⟩ := interruptOutcome_frame s5
          refine ⟨(Δ0 ++ Δ1) ++ Δ2, ?_, noLifecycle_append (noLifecycle_append hnl v2) i2⟩
          rw [i1, hs5]
          simp
        all_goals
          exact ⟨Δ0 ++ Δ1, by simp [stepState, hs5], noLifecycle_append hnl v2⟩
      · cases b
        case false =>
          refine ⟨(Δ0 ++ Δ1) ++
            [Ev.event "Sensors in desired pipeline are not working, switching to recovery"],
            ?_, ?_⟩
          · simp [stepState, pushEv, hs5]
          · refine noLifecycle_append (noLifecycle_append hnl v2) ?_
            intro e he
            rcases List.mem_singleton.mp he with rfl
            rfl
        case true =>
          exact ⟨Δ0 ++ Δ1, by simp [stepState, hs5], noLifecycle_append hnl v2⟩
  split
  · refine hwarn (pushEv s2 (.warnUnknown p)) [Ev.warnUnknown p] (by simp [pushEv]) ?_ _
    intro e he
    rcases List.mem_singleton.mp he with rfl
    rfl
  · exact hwarn s2 [] (by simp) noLifecycle_nil _

lemma runOuterLoop_frame (env : ExecEnv) (cfg : ExecConfig) (fi : ℕ) :
    ∀ (fuel : ℕ) (s : ExecSt),
    ∃ Δ, (runOuterLoop env cfg fi fuel s).1.trace = s.trace ++ Δ ∧ noLifecycle Δ := by
  intro fuel
  induction fuel with
  | zero =>
    intro s
    exact ⟨[], by simp [runOuterLoop], noLifecycle_nil⟩
  | succ n ih =>
    intro s
    have hrp : (recordPipelineStart env s).trace =
        s.trace ++ [Ev.pipelineStart s.current_pipeline] := by
      simp [recordPipelineStart, pushEv]
    have hrpl : noLifecycle [Ev.pipelineStart s.current_pipeline] := by
      intro e he
      rcases List.mem_singleton.mp he with rfl
      rfl
    obtain ⟨Δr, r1, r2, r3, r4⟩ :=
      run_until_switch_frame env cfg fi (recordPipelineStart env s)
    have hentry : (rusEntry (recordPipelineStart env s)).trace =
        s.trace ++ ([Ev.pipelineStart s.current_pipeline] ++
          (if (recordPipelineStart env s).current_pipeline = "recovery"
            then [Ev.setMission .RECOVERY_STOP] else [])) := by
      unfold rusEntry
      split
      · simp [pushEv, hrp]
      · simp [hrp]
    have hentrynl : noLifecycle ([Ev.pipelineStart s.current_pipeline] ++
        (if (recordPipelineStart env s).current_pipeline = "recovery"
          then [Ev.setMission .RECOVERY_STOP] else [])) := by
      refine noLifecycle_append hrpl ?_
      split
      · intro e he
        rcases List.mem_singleton.mp he with rfl
        rfl
      · exact noLifecycle_nil
    rcases hrus : run_until_switch env cfg fi (recordPipelineStart env s) with ⟨s2, r⟩
    rw [hrus] at r1
    have hs2 : ∃ Δ0, s2.trace = s.trace ++ Δ0 ∧ noLifecycle Δ0 := by
      refine ⟨_ ++ Δr, ?_, noLifecycle_append hentrynl r2⟩
      rw [show s2.trace = (s2, r).1.trace from rfl, r1, hentry]
      simp
    obtain ⟨Δ0, hs2t, hs2nl⟩ := hs2
    have hfin : ∀ (out : (ExecSt × Except PyErr Unit) ⊕ ExecSt) (Δs : List Ev),
        (stepState out).trace = s.trace ++ Δs → noLifecycle Δs →
        ∃ Δ, (match out with
          | .inl r => r
          | .inr s3 => runOuterLoop env cfg fi n s3).1.trace = s.trace ++ Δ
          ∧ noLifecycle Δ := by
      intro out Δs ht hnl
      rcases out with ⟨st, rr⟩ | st
      · exact ⟨Δs, ht, hnl⟩
      · obtain ⟨Δ2, q1, q2⟩ := ih st
        refine ⟨Δs ++ Δ2, ?_, noLifecycle_append hnl q2⟩
        rw [q1, show (stepState (Sum.inr st)).trace = st.trace from rfl] at *
        rw [ht]
        simp
    have hstep : runOuterLoop env cfg fi (n + 1) s =
        (match (match (s2, r) with
          | (s2, .ok none) =>
              Sum.inl (pushEv s2 (.exitReason "normal exit"), Except.ok ())
          | (s2, .ok (some next0)) => handleSwitch env cfg fi s2 next0
          | (s2, .error .keyboardInterrupt) => interruptOutcome s2
          | (s2, .error e) => Sum.inl (s2, Except.error e)) with
        | .inl rr => rr
        | .inr s3 => runOuterLoop env cfg fi n s3) := by
      simp only [runOuterLoop, hrus]
    rw [hstep]
    rcases r with e | op
    · cases e
      case keyboardInterrupt =>
        obtain ⟨Δi, i1, i2⟩ := interruptOutcome_frame s2
        refine hfin (interruptOutcome s2) (Δ0 ++ Δi) ?_ (noLifecycle_append hs2nl i2)
        rw [i1, hs2t]
        simp
      all_goals
        exact hfin (Sum.inl (s2, Except.error _)) Δ0 hs2t hs2nl
    · rcases op with _ | p
      · dsimp only
        refine ⟨Δ0 ++ [Ev.exitReason "normal exit"], ?_, ?_⟩
        · simp [pushEv, hs2t]
        · refine noLifecycle_append hs2nl ?_
          intro e he
          rcases List.mem_singleton.mp he with rfl
          rfl
      · obtain ⟨Δh, hh1, hh2⟩ := handleSwitch_frame env cfg fi s2 p
        refine hfin _ (Δ0 ++ Δh) ?_ (noLifecycle_append hs2nl hh2)
        rw [hh1, hs2t]
        simp

/-! ## C5 -/

/-- Claim C5: entering `run_until_switch` with `current_pipeline =
"recovery"` sets `state.mission.type` to `RECOVERY_STOP` as the very first
action: the `setMission` event heads everything the invocation appends
(in particular it precedes every component execution of the invocation),
and the mission type is `RECOVERY_STOP` throughout (nothing in the loop
resets it). -/
theorem C5_recovery_sets_mission (env : ExecEnv) (cfg : ExecConfig) (fuel : ℕ)
    (s : ExecSt) (h : s.current_pipeline = "recovery") :
    (∃ Δ, (run_until_switch env cfg fuel s).1.trace =
        s.trace ++ Ev.setMission .RECOVERY_STOP :: Δ)
    ∧ (run_until_switch env cfg fuel s).1.state.mission_type = .RECOVERY_STOP := by
  obtain ⟨Δ, h1, h2, h3, h4⟩ := run_until_switch_frame env cfg fuel s
  have hentry : rusEntry s =
      pushEv { s with state := { s.state with mission_type := .RECOVERY_STOP } }
        (.setMission .RECOVERY_STOP) := by
    unfold rusEntry
    rw [if_pos h]
  constructor
  · refine ⟨Δ, ?_⟩
    rw [h1, hentry]
    simp [pushEv]
  · rw [h3, hentry]
    rfl

theorem C5_witness :
    (∃ Δ, (run_until_switch envBenign cfgRec 2 sRec).1.trace =
        sRec.trace ++ Ev.setMission .RECOVERY_STOP :: Δ)
    ∧ (run_until_switch envBenign cfgRec 2 sRec).1.state.mission_type = .RECOVERY_STOP :=
  C5_recovery_sets_mission envBenign cfgRec 2 sRec rfl

/-! ## C10 -/

lemma dtCandidates_nil (store : List (String × ComponentExecutor)) (names : List String)
    (h : ∀ ex ∈ names.filterMap (alookup store), ex.dt = 0) :
    dtCandidates store names = [] := by
  unfold dtCandidates
  rw [List.filter_eq_nil_iff]
  intro d hd
  rw [List.mem_map] at hd
  obtain ⟨ex, hex, rfl⟩ := hd
  simp [h ex hex]

/-- Claim C10: when every component participating in the current pipeline
has `dt = 0`, `validate_sensors` (with a nonempty perception phase) and
`run_until_switch` raise `ValueError` — `min` of an empty sequence —
before any component executes: the returned state is the entry state
itself (only the `recovery` mission flip for `run_until_switch`), with no
`compUpdate` event appended. -/
theorem C10_all_zero_dt_value_error (env : ExecEnv) (cfg : ExecConfig) (fi : ℕ)
    (s : ExecSt) (pl : Pipeline3)
    (hpl : lookupPipeline cfg s.current_pipeline = some pl) :
    (pl.perception ≠ [] →
      (∀ ex ∈ (pl.perception ++ cfg.always_run).filterMap (alookup s.store), ex.dt = 0) →
      validate_sensors env cfg none fi s = (s, .error .valueError))
    ∧ ((∀ ex ∈ (pl.perception ++ pl.planning ++ pl.other ++ cfg.always_run).filterMap
          (alookup s.store), ex.dt = 0) →
        run_until_switch env cfg fi s = (rusEntry s, .error .valueError)) := by
  have hcur : (rusEntry s).current_pipeline = s.current_pipeline := by
    unfold rusEntry
    split <;> rfl
  have hst : (rusEntry s).store = s.store := by
    unfold rusEntry
    split <;> rfl
  constructor
  · intro hne hz
    have hnil := dtCandidates_nil s.store (pl.perception ++ cfg.always_run) hz
    simp only [validate_sensors, hpl]
    rw [if_neg hne, hnil]
    rfl
  · intro hz
    have hnil := dtCandidates_nil s.store
      (pl.perception ++ pl.planning ++ pl.other ++ cfg.always_run) hz
    rw [run_until_switch_eq, hcur, hpl]
    dsimp only
    rw [hst, hnil]
    rfl

theorem C10_witness :
    validate_sensors envBenign cfgZero none 2 sZero = (sZero, .error .valueError)
    ∧ run_until_switch envBenign cfgZero 2 sZero = (rusEntry sZero, .error .valueError) := by
  have h := C10_all_zero_dt_value_error envBenign cfgZero 2 sZero
    { perception := ["Z"] } rfl
  exact ⟨h.1 (by decide) (by decide), h.2 (by decide)⟩

/-! ## C4 -/

/-- Claim C4: in the outer loop's switch handling, a pipeline name that is
not a key of the pipeline set is replaced by `recovery` with a warning
(first conjunct: the handler behaves exactly as if `recovery` had been
requested, after recording the warning); and when the current pipeline
already is `recovery` and the (possibly replaced) request is `recovery`,
the loop records exit reason "recovery pipeline not working" and
terminates (second conjunct: the outer loop returns right after the
`exitReason` event, running no further iteration). -/
theorem C4_switch_handling (env : ExecEnv) (cfg : ExecConfig) (fi : ℕ) :
    (∀ (s2 : ExecSt) (p : String), (lookupPipeline cfg p).isNone = true →
       (lookupPipeline cfg "recovery").isSome = true →
       handleSwitch env cfg fi s2 p =
         handleSwitch env cfg fi (pushEv s2 (.warnUnknown p)) "recovery")
    ∧ (∀ (fuel : ℕ) (s s2 : ExecSt) (p : String),
        run_until_switch env cfg fi (recordPipelineStart env s) = (s2, .ok (some p)) →
        s.current_pipeline = "recovery" →
        ((lookupPipeline cfg p).isNone = true ∨ p = "recovery") →
        runOuterLoop env cfg fi (fuel + 1) s =
          (pushEv (if (lookupPipeline cfg p).isNone = true
              then pushEv s2 (.warnUnknown p) else s2)
            (.exitReason "recovery pipeline not working"), .ok ())) := by
  constructor
  · intro s2 p hp hrec
    rcases hrx : lookupPipeline cfg "recovery" with _ | plr
    · rw [hrx] at hrec
      simp at hrec
    · unfold handleSwitch
      simp only [hp, hrx, Option.isNone_some, Bool.false_eq_true, if_true, if_false]
  · intro fuel s s2 p hrus hcur hp
    obtain ⟨Δ, f1, f2, f3, f4⟩ := run_until_switch_frame env cfg fi (recordPipelineStart env s)
    rw [hrus] at f4
    have hs2cur : s2.current_pipeline = "recovery" := by
      rw [show s2.current_pipeline = (s2, Except.ok (some p)).1.current_pipeline from rfl, f4]
      exact hcur
    have hstep : runOuterLoop env cfg fi (fuel + 1) s =
        (match handleSwitch env cfg fi s2 p with
          | .inl rr => rr
          | .inr s3 => runOuterLoop env cfg fi fuel s3) := by
      simp only [runOuterLoop, hrus]
    have hhs : handleSwitch env cfg fi s2 p =
        Sum.inl (pushEv (if (lookupPipeline cfg p).isNone = true
            then pushEv s2 (.warnUnknown p) else s2)
          (.exitReason "recovery pipeline not working"), Except.ok ()) := by
      unfold handleSwitch
      rcases hp with hN | hR
      · simp only [hN, if_true]
        rw [if_pos (show (pushEv s2 (.warnUnknown p)).current_pipeline = "recovery"
            ∧ True from ⟨hs2cur, trivial⟩)]
      · subst hR
        by_cases hNr : (lookupPipeline cfg "recovery").isNone = true
        · simp only [hNr, if_true]
          rw [if_pos (show (pushEv s2 (.warnUnknown "recovery")).current_pipeline = "recovery"
              ∧ True from ⟨hs2cur, trivial⟩)]
        · rw [Bool.not_eq_true] at hNr
          simp only [hNr, Bool.false_eq_true, if_false]
          rw [if_pos (show s2.current_pipeline = "recovery" ∧ True
              from ⟨hs2cur, trivial⟩)]
    rw [hstep, hhs]

theorem C4_witness :
    runOuterLoop envGhost cfgRec 1 1 sRec4 =
      (pushEv (if (lookupPipeline cfgRec "ghost").isNone = true
          then pushEv (run_until_switch envGhost cfgRec 1
            (recordPipelineStart envGhost sRec4)).1 (.warnUnknown "ghost")
          else (run_until_switch envGhost cfgRec 1
            (recordPipelineStart envGhost sRec4)).1)
        (.exitReason "recovery pipeline not working"), .ok ()) := by
  have h2 : (run_until_switch envGhost cfgRec 1 (recordPipelineStart envGhost sRec4)).2 =
      Except.ok (some "ghost") := rfl
  have hrus : run_until_switch envGhost cfgRec 1 (recordPipelineStart envGhost sRec4) =
      ((run_until_switch envGhost cfgRec 1 (recordPipelineStart envGhost sRec4)).1,
        Except.ok (some "ghost")) := by
    rw [← h2]
  exact (C4_switch_handling envGhost cfgRec 1).2 0 sRec4 _ "ghost" hrus rfl (Or.inl rfl)

/-! ## C2 -/

lemma count_map_start (ks : List String) (k : String) :
    (ks.map Ev.start).count (Ev.start k) = ks.count k := by
  induction ks with
  | nil => rfl
  | cons a rest ih =>
    simp [List.count_cons, ih, Ev.start.injEq]

lemma count_map_stop (ks : List String) (k : String) :
    (ks.map Ev.stop).count (Ev.stop k) = ks.count k := by
  induction ks with
  | nil => rfl
  | cons a rest ih =>
    simp [List.count_cons, ih, Ev.stop.injEq]

lemma count_map_ne (ks : List String) (f : String → Ev) (e : Ev)
    (h : ∀ a, ¬ f a = e) : (ks.map f).count e = 0 := by
  rw [List.count_eq_zero]
  intro hmem
  rw [List.mem_map] at hmem
  obtain ⟨a, -, ha⟩ := hmem
  exact h a ha

lemma noLifecycle_count {mid : List Ev} (hmid : noLifecycle mid) (e : Ev)
    (he : e.isLifecycle = true) : mid.count e = 0 := by
  rw [List.count_eq_zero]
  intro hmem
  rw [hmid e hmem] at he
  exact Bool.false_ne_true he

/-- Counting `start`/`stop`/`close` events in a trace of the shape every
successful `run` produces: all the starts, then lifecycle-free middle,
then all the stops, then the single `close`. -/
lemma trace_counts (ks : List String) (mid : List Ev) (hnd : ks.Nodup)
    (hmid : noLifecycle mid) :
    (∀ k ∈ ks,
      (ks.map Ev.start ++ mid ++ ks.map Ev.stop ++ [Ev.close]).count (Ev.start k) = 1 ∧
      (ks.map Ev.start ++ mid ++ ks.map Ev.stop ++ [Ev.close]).count (Ev.stop k) = 1) ∧
    (ks.map Ev.start ++ mid ++ ks.map Ev.stop ++ [Ev.close]).count Ev.close = 1 ∧
    (ks.map Ev.start ++ mid ++ ks.map Ev.stop ++ [Ev.close]).getLast? = some Ev.close := by
  refine ⟨?_, ?_, ?_⟩
  · intro k hk
    constructor
    · have c1 : (ks.map Ev.start).count (Ev.start k) = 1 := by
        rw [count_map_start]
        exact List.count_eq_one_of_mem hnd hk
      have c2 : mid.count (Ev.start k) = 0 := noLifecycle_count hmid _ rfl
      have c3 : (ks.map Ev.stop).count (Ev.start k) = 0 :=
        count_map_ne ks Ev.stop _ (fun a ha => Ev.noConfusion ha)
      simp [List.count_append, c1, c2, c3]
    · have c1 : (ks.map Ev.start).count (Ev.stop k) = 0 :=
        count_map_ne ks Ev.start _ (fun a ha => Ev.noConfusion ha)
      have c2 : mid.count (Ev.stop k) = 0 := noLifecycle_count hmid _ rfl
      have c3 : (ks.map Ev.stop).count (Ev.stop k) = 1 := by
        rw [count_map_stop]
        exact List.count_eq_one_of_mem hnd hk
      simp [List.count_append, c1, c2, c3]
  · have c1 : (ks.map Ev.start).count Ev.close = 0 :=
      count_map_ne ks Ev.start _ (fun a ha => Ev.noConfusion ha)
    have c2 : mid.count Ev.close = 0 := noLifecycle_count hmid _ rfl
    have c3 : (ks.map Ev.stop).count Ev.close = 0 :=
      count_map_ne ks Ev.stop _ (fun a ha => Ev.noConfusion ha)
    simp [List.count_append, c1, c2, c3]
  · exact List.getLast?_concat _

/-- Any exit through the shutdown tail yields the exactly-once counts:
`finishRun` on a state whose trace is all the starts followed by a
lifecycle-free middle. -/
lemma C2_core (cfg : ExecConfig) (X : ExecSt) (mid : List Ev) (s : ExecSt)
    (hnd : cfg.all_components.Nodup)
    (hX : X.trace = cfg.all_components.map Ev.start ++ mid) (hmid : noLifecycle mid)
    (hfin : finishRun cfg X = (s, Except.ok ())) :
    (∀ k ∈ cfg.all_components,
        s.trace.count (Ev.start k) = 1 ∧ s.trace.count (Ev.stop k) = 1)
    ∧ s.trace.count Ev.close = 1
    ∧ s.trace.getLast? = some Ev.close := by
  have hs : s.trace = cfg.all_components.map Ev.start ++ mid ++
      cfg.all_components.map Ev.stop ++ [Ev.close] := by
    unfold finishRun at hfin
    have h1 : s = { X with trace := X.trace ++ cfg.all_components.map Ev.stop ++ [Ev.close] } :=
      (congrArg Prod.fst hfin).symm
    rw [h1]
    show X.trace ++ cfg.all_components.map Ev.stop ++ [Ev.close] = _
    rw [hX]
  rw [hs]
  exact trace_counts cfg.all_components mid hnd hmid

lemma noLifecycle_two (e1 e2 : Ev) (h1 : e1.isLifecycle = false)
    (h2 : e2.isLifecycle = false) : noLifecycle [e1, e2] := by
  intro e he
  simp only [List.mem_cons, List.not_mem_nil, or_false] at he
  rcases he with rfl | rfl
  · exact h1
  · exact h2

/-- Claim C2: on every execution of `run` that returns normally (no
exception propagates), whatever exit path the loop took — normal
termination, sensor-validation failure, or interrupt — every component of
`all_components` (exactly the started ones) is started once and stopped
(cleaned up) exactly once, and the logging manager is closed exactly once,
after all the cleanups (`close` is the last event of the trace).  The
sanity-check hypotheses rule out the early returns before any component is
started. -/
theorem C2_cleanup_exactly_once (env : ExecEnv) (cfg : ExecConfig)
    (fo fi : ℕ) (s : ExecSt)
    (hnd : cfg.all_components.Nodup)
    (hinit : (lookupPipeline cfg cfg.initial_pipeline).isSome = true)
    (hrec : (lookupPipeline cfg "recovery").isSome = true)
    (hrun : runExec env cfg fo fi = (s, Except.ok ())) :
    (∀ k ∈ cfg.all_components,
        s.trace.count (Ev.start k) = 1 ∧ s.trace.count (Ev.stop k) = 1)
    ∧ s.trace.count Ev.close = 1
    ∧ s.trace.getLast? = some Ev.close := by
  have hne1 : (lookupPipeline cfg (runInitState cfg).current_pipeline).isNone = false := by
    show (lookupPipeline cfg cfg.initial_pipeline).isNone = false
    rcases h : lookupPipeline cfg cfg.initial_pipeline with _ | pl
    · rw [h] at hinit
      simp at hinit
    · rfl
  have hne2 : (lookupPipeline cfg "recovery").isNone = false := by
    rcases h : lookupPipeline cfg "recovery" with _ | pl
    · rw [h] at hrec
      simp at hrec
    · rfl
  by_cases hrep : cfg.replayed_components.any (fun c => !pipelineContains cfg c) = true
  · have hx : runExec env cfg fo fi = (runInitState cfg, Except.error PyErr.valueError) := by
      simp only [runExec, hne1, hne2, hrep, Bool.false_eq_true, if_false, if_true]
    rw [hx] at hrun
    simp at hrun
  · rw [Bool.not_eq_true] at hrep
    obtain ⟨Δv, hv1, hv2, -, -⟩ := validate_sensors_frame env cfg none fi (runStartState cfg)
    rcases hvs : validate_sensors env cfg none fi (runStartState cfg) with ⟨s3, rv⟩
    rw [hvs] at hv1
    have hs3 : s3.trace = cfg.all_components.map Ev.start ++ Δv := by
      rw [show s3.trace = (s3, rv).1.trace from rfl, hv1]
      rfl
    rcases rv with e | b
    · cases e
      · have hx : runExec env cfg fo fi =
            finishRun cfg (pushEv (pushEv s3
                (.event "Ctrl+C interrupt during sensor validation"))
              (.exitReason "Sensor validation failed")) := by
          simp only [runExec, hne1, hne2, hrep, Bool.false_eq_true, if_false, hvs]
        rw [hx] at hrun
        refine C2_core cfg _ (Δv ++ [Ev.event "Ctrl+C interrupt during sensor validation",
            Ev.exitReason "Sensor validation failed"]) s hnd ?_
          (noLifecycle_append hv2 (noLifecycle_two _ _ rfl rfl)) hrun
        simp [pushEv, hs3]
      all_goals
        simp only [runExec, hne1, hne2, hrep, Bool.false_eq_true, if_false, hvs] at hrun
      all_goals simp at hrun
    · cases b
      · have hx : runExec env cfg fo fi =
            finishRun cfg (pushEv (pushEv s3 (.event "Sensor validation failed"))
              (.exitReason "Sensor validation failed")) := by
          simp only [runExec, hne1, hne2, hrep, Bool.false_eq_true, if_false, hvs]
        rw [hx] at hrun
        refine C2_core cfg _ (Δv ++ [Ev.event "Sensor validation failed",
            Ev.exitReason "Sensor validation failed"]) s hnd ?_
          (noLifecycle_append hv2 (noLifecycle_two _ _ rfl rfl)) hrun
        simp [pushEv, hs3]
      · obtain ⟨Δo, ho1, ho2⟩ := runOuterLoop_frame env cfg fi fo s3
        rcases hro : runOuterLoop env cfg fi fo s3 with ⟨s4, ro⟩
        rw [hro] at ho1
        have hs4 : s4.trace = cfg.all_components.map Ev.start ++ (Δv ++ Δo) := by
          rw [show s4.trace = (s4, ro).1.trace from rfl, ho1, hs3, List.append_assoc]
        rcases ro with e | u
        · have hx : runExec env cfg fo fi = (s4, Except.error e) := by
            simp only [runExec, hne1, hne2, hrep, Bool.false_eq_true, if_false, hvs, hro]
          rw [hx] at hrun
          simp at hrun
        · have hx : runExec env cfg fo fi =
              finishRun cfg (pushEv s4 (.event "Mission execution ended")) := by
            simp only [runExec, hne1, hne2, hrep, Bool.false_eq_true, if_false, hvs, hro]
          rw [hx] at hrun
          refine C2_core cfg _ ((Δv ++ Δo) ++ [Ev.event "Mission execution ended"]) s hnd ?_
            (noLifecycle_append (noLifecycle_append hv2 ho2) ?_) hrun
          · simp [pushEv, hs4]
          · intro e he
            rcases List.mem_singleton.mp he with rfl
            rfl

theorem C2_witness :
    List.Nodup cfgRec.all_components
    ∧ ((∀ k ∈ cfgRec.all_components,
          (runExec envDone cfgRec 1 1).1.trace.count (Ev.start k) = 1 ∧
          (runExec envDone cfgRec 1 1).1.trace.count (Ev.stop k) = 1)
      ∧ (runExec envDone cfgRec 1 1).1.trace.count Ev.close = 1
      ∧ (runExec envDone cfgRec 1 1).1.trace.getLast? = some Ev.close) := by
  have h2 : (runExec envDone cfgRec 1 1).2 = Except.ok () := rfl
  have hrun : runExec envDone cfgRec 1 1 =
      ((runExec envDone cfgRec 1 1).1, Except.ok ()) := by
    rw [← h2]
  exact ⟨by decide, C2_cleanup_exactly_once envDone cfgRec 1 1
    (runExec envDone cfgRec 1 1).1 (by decide) (by decide) (by decide) hrun⟩

end Exec
